import Mathlib

/-!
# EduOM: slotted-page compaction and object creation

A shallow embedding of `EduOM_CompactPage.c` and `EduOM_CreateObject.c`.

* C integers (the types `Two` and `Four` of the sources) are modelled as unbounded `Int`.
  On a structurally valid page the offsets computed by the compactor stay between `0`
  and `header.free` (`loopState_offset_bounded`, `compact_free_le`), so no wrap-around is
  left out.
* A pointer that may be `NULL` is an `Option`.
* The data area of a page is a map from byte index to byte value; the slot array is a map
  from slot number to slot entry, entry `i` being the C expression `slot[-i]`.  The two
  areas are kept apart, as the page-layout invariant of the specification demands.
* A pointer to a buffer frame is the identifier of the train the frame was handed out for.
* Constants, macros and collaborators that live in headers or modules outside the two
  source files are parameters (`Params`, `Collab`).
-/

namespace EduOM

/-! ## Basic types -/

/-- Constants coming from headers that are not part of the two source files. -/
structure Params where
  /-- alignment unit used by `ALIGNED_LENGTH` -/
  ALIGN : Int
  /-- value of `sizeof(SlottedPageSlot)` -/
  sizeofSlottedPageSlot : Int
  /-- number of bytes of a page shared by the data area and the slot array -/
  PAGESIZE : Int
  LRGOBJ_THRESHOLD : Int
  SP_10SIZE : Int
  SP_20SIZE : Int
  SP_30SIZE : Int
  SP_40SIZE : Int
  SP_50SIZE : Int
  /-- sentinel stored in the offset of a retired slot -/
  EMPTYSLOT : Int
  /-- sentinel for "no slot" and "no page" -/
  NIL : Int
  eBADCATALOGOBJECT_OM : Int
  eBADLENGTH_OM : Int
  eBADUSERBUF_OM : Int
  eBADOBJECTID_OM : Int
  eNOTSUPPORTED_EDUOM : Int

/-- Sanity conditions on the constants: sizes are positive, sentinels and error codes are
negative (an error is recognised by `e < 0`). -/
structure Params.WF (C : Params) : Prop where
  align_pos : 0 < C.ALIGN
  slot_pos : 0 < C.sizeofSlottedPageSlot
  emptyslot_neg : C.EMPTYSLOT < 0
  nil_neg : C.NIL < 0
  eBADCATALOGOBJECT_neg : C.eBADCATALOGOBJECT_OM < 0
  eBADLENGTH_neg : C.eBADLENGTH_OM < 0
  eBADUSERBUF_neg : C.eBADUSERBUF_OM < 0
  eBADOBJECTID_neg : C.eBADOBJECTID_OM < 0
  eNOTSUPPORTED_neg : C.eNOTSUPPORTED_EDUOM < 0

/-- The success code. -/
def eNOERROR : Int := 0

structure PageID where
  pageNo : Int
  volNo : Int
deriving DecidableEq

structure FileID where
  volNo : Int
  serial : Int
deriving DecidableEq

structure ObjectID where
  pageNo : Int
  volNo : Int
  slotNo : Int
  unique : Int
deriving DecidableEq

/-- Record header `{Two properties; Two tag; Four length}`. -/
structure ObjectHdr where
  properties : Int
  tag : Int
  length : Int
deriving DecidableEq

structure SlottedPageSlot where
  offset : Int
  unique : Int
deriving DecidableEq

structure SlottedPageHdr where
  flags : Int
  nSlots : Int
  free : Int
  unused : Int
  fid : FileID
deriving DecidableEq

/-- Memory seen as bytes: index to byte value. -/
abbrev Bytes := Int → Nat

structure SlottedPage where
  header : SlottedPageHdr
  /-- `data[k]` -/
  data : Bytes
  /-- entry `i` is the C expression `slot[-i]` -/
  slot : Int → SlottedPageSlot

/-! ## Byte-level access -/

/-- Little-endian unsigned value of the `w` bytes starting at `off`. -/
def readLE (d : Bytes) (off : Int) : Nat → Nat
  | 0 => 0
  | w + 1 => d off % 256 + 256 * readLE d (off + 1) w

/-- Store the low `w` bytes of `v`, little-endian, starting at `off`. -/
def writeLE (d : Bytes) (off : Int) (v : Nat) : Nat → Bytes
  | 0 => d
  | w + 1 => writeLE (Function.update d off (v % 256)) (off + 1) (v / 256) w

/-- Two's-complement reading of a `w`-byte unsigned value. -/
def toSigned (w : Nat) (v : Nat) : Int :=
  if v < 2 ^ (8 * w - 1) then (v : Int) else (v : Int) - 2 ^ (8 * w)

/-- Two's-complement `w`-byte representation of an integer. -/
def toUnsigned (w : Nat) (x : Int) : Nat :=
  (x % 2 ^ (8 * w)).toNat

/-- Value of `sizeof(ObjectHdr)`: two `Two` fields and one `Four` field. -/
def sizeofObjectHdr : Int := 8

/-- Reading `obj->header.properties` for the object at `off`. -/
def Object.properties (d : Bytes) (off : Int) : Int := toSigned 2 (readLE d off 2)

/-- Reading `obj->header.tag` for the object at `off`. -/
def Object.tag (d : Bytes) (off : Int) : Int := toSigned 2 (readLE d (off + 2) 2)

/-- Reading `obj->header.length` for the object at `off`. -/
def Object.length (d : Bytes) (off : Int) : Int := toSigned 4 (readLE d (off + 4) 4)

/-- The assignments `obj->header.properties = ..; obj->header.tag = ..;
obj->header.length = ..` for the object at `off`. -/
def Object.setHeader (d : Bytes) (off : Int) (h : ObjectHdr) : Bytes :=
  writeLE (writeLE (writeLE d off (toUnsigned 2 h.properties) 2)
    (off + 2) (toUnsigned 2 h.tag) 2) (off + 4) (toUnsigned 4 h.length) 4

/-- A call `memcpy(&dst[dOff], &src[sOff], n)` between two distinct objects. -/
def memcpy (dst : Bytes) (dOff : Int) (src : Bytes) (sOff : Int) (n : Int) : Bytes :=
  fun k => if dOff ≤ k ∧ k < dOff + n then src (sOff + (k - dOff)) else dst k

/-- Modelled from the spec: the macro `ALIGNED_LENGTH` (its header is not among the
sources) rounds a length up to the next multiple of `ALIGN`; `Int.tmod` is the C
remainder. -/
def ALIGNED_LENGTH (C : Params) (length : Int) : Int :=
  if Int.tmod length C.ALIGN ≠ 0 then length - Int.tmod length C.ALIGN + C.ALIGN else length

/-- Modelled from the spec: the macro `SP_CFREE`, contiguous-free =
pageSize - slotArraySize - free. -/
def SP_CFREE (C : Params) (apage : SlottedPage) : Int :=
  C.PAGESIZE - apage.header.nSlots * C.sizeofSlottedPageSlot - apage.header.free

/-- Modelled from the spec: the macro `SP_FREE`, reclaimable-free =
contiguous-free + unused. -/
def SP_FREE (C : Params) (apage : SlottedPage) : Int :=
  SP_CFREE C apage + apage.header.unused

/-! ## EduOM_CompactPage -/

/-- Loop state of `EduOM_CompactPage`: the page being rewritten and `apageDataOffset`. -/
structure CompactState where
  apage : SlottedPage
  apageDataOffset : Int

/-- The four statements that move one object (lines 100-106 and again 112-116):
read the object of slot `i` in the saved page `tpage`, copy it to `apageDataOffset`,
store the new offset in the slot, advance `apageDataOffset`. -/
def EduOM_CompactPage.moveObject (C : Params) (tpage : SlottedPage) (st : CompactState)
    (i : Int) : CompactState :=
  let off := (tpage.slot i).offset
  let len := ALIGNED_LENGTH C (Object.length tpage.data off) + sizeofObjectHdr
  { apage :=
      { st.apage with
        data := memcpy st.apage.data st.apageDataOffset tpage.data off len
        slot := Function.update st.apage.slot i
          { st.apage.slot i with offset := st.apageDataOffset } }
    apageDataOffset := st.apageDataOffset + len }

/-- One iteration of the `for` loop (lines 94-107). -/
def EduOM_CompactPage.step (C : Params) (tpage : SlottedPage) (slotNo : Int)
    (st : CompactState) (i : Nat) : CompactState :=
  if slotNo = (i : Int) ∨ (tpage.slot (i : Int)).offset = C.EMPTYSLOT then st
  else EduOM_CompactPage.moveObject C tpage st (i : Int)

/-- State reached at the end of `EduOM_CompactPage`, before the header is updated. -/
def EduOM_CompactPage.run (C : Params) (apage : SlottedPage) (slotNo : Int) : CompactState :=
  let tpage := apage
  let lastSlot := apage.header.nSlots
  let st := (List.range lastSlot.toNat).foldl (EduOM_CompactPage.step C tpage slotNo)
    { apage := apage, apageDataOffset := 0 }
  if slotNo ≠ C.NIL then EduOM_CompactPage.moveObject C tpage st slotNo else st

/-- The function `EduOM_CompactPage(apage, slotNo)`: returned code and the page afterwards. -/
def EduOM_CompactPage (C : Params) (apage : SlottedPage) (slotNo : Int) : Int × SlottedPage :=
  let st := EduOM_CompactPage.run C apage slotNo
  (eNOERROR,
    { st.apage with
      header := { st.apage.header with free := st.apageDataOffset, unused := 0 } })

/-! ## Collaborators of EduOM_CreateObject -/

/-- Catalog entry of a data file (`sm_CatOverlayForData`): the fields the sources read. -/
structure sm_CatOverlayForData where
  fid : FileID
  eff : Int
  firstPage : Int
  lastPage : Int
  availSpaceList10 : Int
  availSpaceList20 : Int
  availSpaceList30 : Int
  availSpaceList40 : Int
  availSpaceList50 : Int
deriving DecidableEq

/-- A call made by `eduom_CreateObject`, with the arguments that identify it.  The argument
`apage` is the buffer frame the pointer `apage` designates at the call. -/
inductive Call where
  | BfM_GetTrain (trainId : PageID)
  | BfM_GetNewTrain (trainId : PageID)
  | BfM_FreeTrain (trainId : PageID)
  | BfM_SetDirty (trainId : PageID)
  | RDsM_PageIdToExtNo (pid : PageID)
  | RDsM_AllocTrains (volNo firstExt : Int) (nearPid : PageID) (eff : Int)
  | om_RemoveFromAvailSpaceList (catObjForFile : ObjectID) (pid apage : PageID)
  | om_PutInAvailSpaceList (catObjForFile : ObjectID) (pid apage : PageID)
  | om_FileMapAddPage (catObjForFile : ObjectID) (prevPid newPid : PageID)
  | om_GetUnique (pid : PageID)
  | EduOM_CompactPage (apage : PageID) (slotNo : Int)
deriving DecidableEq

/-- Modelled from the spec: the collaborators of section 6 (buffer manager, physical
allocator, page-chain maintainer, bucket maintainer, stamp generator), none of which is
among the sources.  Each is known by its call contract only, so its answers are
parameters: the code it returns and the value it delivers through its output argument,
both as functions of the calls made so far. -/
structure Collab where
  /-- code returned by a call -/
  ret : List Call → Call → Int
  /-- extent number delivered by `RDsM_PageIdToExtNo` -/
  extNo : List Call → PageID → Int
  /-- page delivered by `RDsM_AllocTrains` -/
  allocPid : List Call → PageID
  /-- stamp delivered by `om_GetUnique` -/
  unique : List Call → PageID → Int

/-- What `eduom_CreateObject` can see and change outside its arguments. -/
structure World where
  /-- contents of the buffer frame handed out for each train -/
  buffer : PageID → SlottedPage
  /-- catalog entry reached through `GET_PTR_TO_CATENTRY_FOR_DATA` -/
  catEntry : ObjectID → sm_CatOverlayForData
  /-- calls made so far, oldest first -/
  calls : List Call

/-- Make a call: its code, and the world with the call recorded. -/
def World.call (K : Collab) (w : World) (c : Call) : Int × World :=
  (K.ret w.calls c, { w with calls := w.calls ++ [c] })

/-- A page whose bytes are all zero. -/
def zeroPage : SlottedPage :=
  { header := { flags := 0, nSlots := 0, free := 0, unused := 0, fid := ⟨0, 0⟩ }
    data := fun _ => 0
    slot := fun _ => { offset := 0, unique := 0 } }

/-- Modelled from the spec: `pinNew(pageId) -> zero-filled handle`, the contract of
`BfM_GetNewTrain`, which is not among the sources. -/
def BfM_GetNewTrain (K : Collab) (w : World) (pid : PageID) : Int × World :=
  let r := w.call K (Call.BfM_GetNewTrain pid)
  if r.1 < 0 then r
  else (r.1, { r.2 with buffer := Function.update r.2.buffer pid zeroPage })

/-- Modelled from the spec: the macro `ERRB1(e, pid, type)` (its header is not among the
sources) unpins `pid` before the error `e` is returned; the world after the unpin. -/
def ERRB1 (K : Collab) (w : World) (pid : PageID) : World :=
  (w.call K (Call.BfM_FreeTrain pid)).2

/-- How a block of statements ends. -/
inductive Flow (α : Type) where
  /-- a `NULL` pointer is dereferenced -/
  | fault : Flow α
  /-- the function returns the code `e` -/
  | ret (e : Int) (w : World) : Flow α
  /-- control reaches the end of the block -/
  | next (a : α) : Flow α

/-- Result of a call of `eduom_CreateObject` or `EduOM_CreateObject` that returns. -/
structure Outcome where
  /-- returned code -/
  e : Int
  w : World
  /-- contents of `*oid` -/
  oid : ObjectID

/-- Page chosen by the selection part: the frame `apage` points to and the value of `pid`. -/
structure Selected where
  w : World
  apage : PageID
  pid : PageID

/-! ## eduom_CreateObject -/

/-- The statements `e = EduOM_CompactPage(apage, nearObj->slotNo); if (e < 0) ERR(e);`
(lines 220-222, 273-275, 291-293). -/
def eduom_CreateObject.compact (C : Params) (w : World) (apage : PageID)
    (nearObj : Option ObjectID) : Flow World :=
  match nearObj with
  | none => Flow.fault
  | some near =>
    let r := EduOM_CompactPage C (w.buffer apage) near.slotNo
    let w1 : World :=
      { w with
        buffer := Function.update w.buffer apage r.2
        calls := w.calls ++ [Call.EduOM_CompactPage apage near.slotNo] }
    if r.1 < 0 then Flow.ret r.1 w1 else Flow.next w1

/-- The assignments to `apage->header` made for a new page (lines 237-240, 305-308). -/
def eduom_CreateObject.initHeader (w : World) (apage : PageID) (fid : FileID) : World :=
  let p := w.buffer apage
  { w with
    buffer := Function.update w.buffer apage
      { p with header := { p.header with flags := 2, free := 0, unused := 0, fid := fid } } }

/-- The branch `nearObj != NULL` of the selection part (lines 207-245). -/
def eduom_CreateObject.selectNear (C : Params) (K : Collab) (catObjForFile : ObjectID)
    (near : ObjectID) (neededSpace : Int) (catEntry : sm_CatOverlayForData) (firstExt : Int)
    (w : World) : Flow Selected :=
  let nearPid : PageID := { pageNo := near.pageNo, volNo := near.volNo }
  let r1 := w.call K (Call.BfM_GetTrain nearPid)
  if r1.1 < 0 then Flow.ret r1.1 r1.2
  else if neededSpace ≤ SP_FREE C (r1.2.buffer nearPid) then
    let pid := nearPid
    let r2 := r1.2.call K (Call.om_RemoveFromAvailSpaceList catObjForFile pid nearPid)
    if r2.1 < 0 then Flow.ret r2.1 (ERRB1 K r2.2 pid)
    else if neededSpace > SP_CFREE C (r2.2.buffer nearPid) then
      match eduom_CreateObject.compact C r2.2 nearPid (some near) with
      | Flow.fault => Flow.fault
      | Flow.ret e w3 => Flow.ret e w3
      | Flow.next w3 => Flow.next { w := w3, apage := nearPid, pid := pid }
    else Flow.next { w := r2.2, apage := nearPid, pid := pid }
  else
    let r2 := r1.2.call K (Call.BfM_FreeTrain nearPid)
    if r2.1 < 0 then Flow.ret r2.1 r2.2
    else
      let pid := K.allocPid r2.2.calls
      let r3 := r2.2.call K (Call.RDsM_AllocTrains catEntry.fid.volNo firstExt nearPid catEntry.eff)
      if r3.1 < 0 then Flow.ret r3.1 r3.2
      else
        let r4 := BfM_GetNewTrain K r3.2 pid
        if r4.1 < 0 then Flow.ret r4.1 r4.2
        else
          let w5 := eduom_CreateObject.initHeader r4.2 pid catEntry.fid
          let r6 := w5.call K (Call.om_FileMapAddPage catObjForFile nearPid pid)
          if r6.1 < 0 then Flow.ret r6.1 (ERRB1 K r6.2 pid)
          else Flow.next { w := r6.2, apage := pid, pid := pid }

/-- The choice of `availPage` (lines 175 and 250-259). -/
def eduom_CreateObject.availPage (C : Params) (catEntry : sm_CatOverlayForData)
    (neededSpace : Int) : Int :=
  if neededSpace ≤ C.SP_10SIZE then catEntry.availSpaceList10
  else if neededSpace ≤ C.SP_20SIZE then catEntry.availSpaceList20
  else if neededSpace ≤ C.SP_30SIZE then catEntry.availSpaceList30
  else if neededSpace ≤ C.SP_40SIZE then catEntry.availSpaceList40
  else if neededSpace ≤ C.SP_50SIZE then catEntry.availSpaceList50
  else C.NIL

/-- The branch `nearObj == NULL` of the selection part (lines 248-313).  The pointer
`nearObj` is `NULL` here, so the argument `nearObj->slotNo` of the compactor cannot be
evaluated. -/
def eduom_CreateObject.selectFar (C : Params) (K : Collab) (catObjForFile : ObjectID)
    (neededSpace : Int) (catEntry : sm_CatOverlayForData) (pFid : PageID) (firstExt : Int)
    (w : World) : Flow Selected :=
  let availPage := eduom_CreateObject.availPage C catEntry neededSpace
  if availPage ≠ C.NIL then
    let pid : PageID := { pageNo := availPage, volNo := pFid.volNo }
    let r1 := BfM_GetNewTrain K w pid
    if r1.1 < 0 then Flow.ret r1.1 r1.2
    else
      let r2 := r1.2.call K (Call.om_RemoveFromAvailSpaceList catObjForFile pid pid)
      if r2.1 < 0 then Flow.ret r2.1 r2.2
      else if neededSpace > SP_CFREE C (r2.2.buffer pid) then
        match eduom_CreateObject.compact C r2.2 pid none with
        | Flow.fault => Flow.fault
        | Flow.ret e w3 => Flow.ret e w3
        | Flow.next w3 => Flow.next { w := w3, apage := pid, pid := pid }
      else Flow.next { w := r2.2, apage := pid, pid := pid }
  else
    let pid : PageID := { pageNo := catEntry.lastPage, volNo := pFid.volNo }
    let r1 := w.call K (Call.BfM_GetTrain pid)
    if r1.1 < 0 then Flow.ret r1.1 r1.2
    else if neededSpace ≤ SP_FREE C (r1.2.buffer pid) then
      let r2 := r1.2.call K (Call.om_RemoveFromAvailSpaceList catObjForFile pid pid)
      if r2.1 < 0 then Flow.ret r2.1 r2.2
      else if neededSpace > SP_CFREE C (r2.2.buffer pid) then
        match eduom_CreateObject.compact C r2.2 pid none with
        | Flow.fault => Flow.fault
        | Flow.ret e w3 => Flow.ret e w3
        | Flow.next w3 => Flow.next { w := w3, apage := pid, pid := pid }
      else Flow.next { w := r2.2, apage := pid, pid := pid }
    else
      let r2 := r1.2.call K (Call.BfM_FreeTrain pid)
      if r2.1 < 0 then Flow.ret r2.1 r2.2
      else
        let nearPid : PageID := { pageNo := catEntry.lastPage, volNo := pFid.volNo }
        let newPid := K.allocPid r2.2.calls
        let r3 := r2.2.call K
          (Call.RDsM_AllocTrains catEntry.fid.volNo firstExt nearPid catEntry.eff)
        if r3.1 < 0 then Flow.ret r3.1 r3.2
        else
          -- no frame is requested for the new page: `apage` still designates the frame
          -- of the last page
          let w4 := eduom_CreateObject.initHeader r3.2 pid catEntry.fid
          let r5 := w4.call K (Call.om_FileMapAddPage catObjForFile nearPid newPid)
          if r5.1 < 0 then Flow.ret r5.1 (ERRB1 K r5.2 newPid)
          else Flow.next { w := r5.2, apage := pid, pid := newPid }

/-- The `while` loop of lines 317-323, started at `i` with `fuel` slots left to look at;
called with `fuel = nSlots` and `i = 0` it runs the loop to its end. -/
def eduom_CreateObject.findSlot (C : Params) (apage : SlottedPage) : Nat → Nat → Nat
  | 0, i => i
  | fuel + 1, i =>
    if (apage.slot (i : Int)).offset = C.EMPTYSLOT then i
    else eduom_CreateObject.findSlot C apage fuel (i + 1)

/-- Lines 317-332: choose the slot `i`, store the offset, advance `free`, write the record
header and the payload.  Gives the page afterwards and `i`. -/
def eduom_CreateObject.placeObject (C : Params) (apage : SlottedPage) (objHdr : ObjectHdr)
    (length : Int) (data : Bytes) : SlottedPage × Int :=
  let alignedLen := ALIGNED_LENGTH C length
  let i : Int := (eduom_CreateObject.findSlot C apage apage.header.nSlots.toNat 0 : Nat)
  let offset := apage.header.free
  let slot1 := Function.update apage.slot i { apage.slot i with offset := offset }
  let free1 := apage.header.free + (sizeofObjectHdr + alignedLen)
  let data1 := Object.setHeader apage.data offset
    { properties := objHdr.properties, tag := objHdr.tag, length := length }
  let data2 := memcpy data1 (offset + sizeofObjectHdr) data 0 length
  ({ header := { apage.header with free := free1 }, data := data2, slot := slot1 }, i)

/-- Lines 316-355: insert the object into the selected page and finish. -/
def eduom_CreateObject.insertObject (C : Params) (K : Collab) (catObjForFile : ObjectID)
    (objHdr : ObjectHdr) (length : Int) (data : Bytes) (oid : ObjectID) (sel : Selected) :
    Outcome :=
  let placed := eduom_CreateObject.placeObject C (sel.w.buffer sel.apage) objHdr length data
  let i := placed.2
  let w1 : World := { sel.w with buffer := Function.update sel.w.buffer sel.apage placed.1 }
  let unique := K.unique w1.calls sel.pid
  let r2 := w1.call K (Call.om_GetUnique sel.pid)
  if r2.1 < 0 then { e := r2.1, w := r2.2, oid := oid }
  else
    let p2 := r2.2.buffer sel.apage
    let slot3 := Function.update p2.slot i { p2.slot i with unique := unique }
    let oid3 : ObjectID :=
      { pageNo := sel.pid.pageNo, volNo := sel.pid.volNo, slotNo := i, unique := unique }
    let p3 : SlottedPage :=
      { p2 with
        slot := slot3
        header := { p2.header with nSlots := max p2.header.nSlots (i + 1) } }
    let w3 : World := { r2.2 with buffer := Function.update r2.2.buffer sel.apage p3 }
    let r4 := w3.call K (Call.BfM_SetDirty sel.pid)
    if r4.1 < 0 then { e := r4.1, w := r4.2, oid := oid3 }
    else
      let r5 := r4.2.call K (Call.BfM_FreeTrain sel.pid)
      if r5.1 < 0 then { e := r5.1, w := r5.2, oid := oid3 }
      else
        let r6 := r5.2.call K (Call.om_PutInAvailSpaceList catObjForFile sel.pid sel.apage)
        if r6.1 < 0 then { e := r6.1, w := ERRB1 K r6.2 sel.pid, oid := oid3 }
        else
          let r7 := r6.2.call K
            (Call.BfM_FreeTrain { pageNo := catObjForFile.pageNo, volNo := catObjForFile.volNo })
          if r7.1 < 0 then { e := r7.1, w := r7.2, oid := oid3 }
          else { e := eNOERROR, w := r7.2, oid := oid3 }

/-- The function `eduom_CreateObject`.  The result is `none` when a `NULL` pointer is
dereferenced (`nearObj->slotNo` with `nearObj == NULL`, or a `NULL` payload of positive
length). -/
def eduom_CreateObject (C : Params) (K : Collab) (catObjForFile : Option ObjectID)
    (nearObj : Option ObjectID) (objHdr : Option ObjectHdr) (length : Int)
    (data : Option Bytes) (oid : ObjectID) (w : World) : Option Outcome :=
  match catObjForFile with
  | none => some { e := C.eBADCATALOGOBJECT_OM, w := w, oid := oid }
  | some cat =>
    match objHdr with
    | none => some { e := C.eBADOBJECTID_OM, w := w, oid := oid }
    | some hdr =>
      if ALIGNED_LENGTH C length > C.LRGOBJ_THRESHOLD then
        some { e := C.eNOTSUPPORTED_EDUOM, w := w, oid := oid }
      else
        let alignedLen := ALIGNED_LENGTH C length
        let neededSpace := sizeofObjectHdr + alignedLen + C.sizeofSlottedPageSlot
        -- the code of this first call is overwritten before it is looked at
        let r1 := w.call K (Call.BfM_GetTrain { pageNo := cat.pageNo, volNo := cat.volNo })
        let catEntry := r1.2.catEntry cat
        let pFid : PageID := { pageNo := catEntry.firstPage, volNo := catEntry.fid.volNo }
        let firstExt := K.extNo r1.2.calls pFid
        let r2 := r1.2.call K (Call.RDsM_PageIdToExtNo pFid)
        if r2.1 < 0 then some { e := r2.1, w := r2.2, oid := oid }
        else
          let sel := match nearObj with
            | some near =>
              eduom_CreateObject.selectNear C K cat near neededSpace catEntry firstExt r2.2
            | none =>
              eduom_CreateObject.selectFar C K cat neededSpace catEntry pFid firstExt r2.2
          match sel with
          | Flow.fault => none
          | Flow.ret e w3 => some { e := e, w := w3, oid := oid }
          | Flow.next s =>
            match data with
            | some d => some (eduom_CreateObject.insertObject C K cat hdr length d oid s)
            | none =>
              if length > 0 then none
              else some (eduom_CreateObject.insertObject C K cat hdr length (fun _ => 0) oid s)

/-! ## EduOM_CreateObject -/

/-- The function `EduOM_CreateObject`.  The value of the call of `eduom_CreateObject` on
line 118 is not used; line 120 returns `eNOERROR`. -/
def EduOM_CreateObject (C : Params) (K : Collab) (catObjForFile : Option ObjectID)
    (nearObj : Option ObjectID) (objHdr : Option ObjectHdr) (length : Int)
    (data : Option Bytes) (oid : ObjectID) (w : World) : Option Outcome :=
  if catObjForFile.isNone then some { e := C.eBADCATALOGOBJECT_OM, w := w, oid := oid }
  else if length < 0 then some { e := C.eBADLENGTH_OM, w := w, oid := oid }
  else if length > 0 ∧ data.isNone then some { e := C.eBADUSERBUF_OM, w := w, oid := oid }
  else if ALIGNED_LENGTH C length > C.LRGOBJ_THRESHOLD then
    some { e := C.eNOTSUPPORTED_EDUOM, w := w, oid := oid }
  else
    let objectHdr : ObjectHdr :=
      { properties := 0
        length := 0
        tag := match objHdr with
          | some h => h.tag
          | none => 0 }
    match eduom_CreateObject C K catObjForFile nearObj (some objectHdr) length data oid w with
    | none => none
    | some r => some { r with e := eNOERROR }

/-! ## Vocabulary for the compaction theorems -/

/-- Length field of the record slot `i` points to. -/
def SlottedPage.recLength (P : SlottedPage) (i : Int) : Int :=
  Object.length P.data (P.slot i).offset

/-- Bytes occupied by the record of slot `i`:
`sizeof(ObjectHdr) + ALIGNED_LENGTH(length)`. -/
def SlottedPage.recSize (C : Params) (P : SlottedPage) (i : Int) : Int :=
  ALIGNED_LENGTH C (P.recLength i) + sizeofObjectHdr

/-- Structural validity of a page: every live slot below the slot count points to a record
with a non-negative length whose byte range lies inside `[0, free)`, and the ranges of
two different live slots are disjoint. -/
structure SlottedPage.Valid (C : Params) (P : SlottedPage) : Prop where
  inBounds : ∀ i : Nat, i < P.header.nSlots.toNat → (P.slot i).offset ≠ C.EMPTYSLOT →
    0 ≤ (P.slot i).offset ∧ 0 ≤ P.recLength i ∧
      (P.slot i).offset + P.recSize C i ≤ P.header.free
  disjoint : ∀ i : Nat, i < P.header.nSlots.toNat → ∀ j : Nat, j < P.header.nSlots.toNat →
    (P.slot i).offset ≠ C.EMPTYSLOT → (P.slot j).offset ≠ C.EMPTYSLOT → i ≠ j →
    (P.slot i).offset + P.recSize C i ≤ (P.slot j).offset ∨
      (P.slot j).offset + P.recSize C j ≤ (P.slot i).offset

/-- Sum of `sizeof(ObjectHdr) + ALIGNED_LENGTH(length)` over the live slots below the slot
count. -/
def SlottedPage.liveBytes (C : Params) (P : SlottedPage) : Int :=
  (((List.range P.header.nSlots.toNat).filter
      (fun i : Nat => decide ((P.slot (i : Int)).offset ≠ C.EMPTYSLOT))).map
    (fun i : Nat => P.recSize C (i : Int))).sum

/-- The target argument of the compactor is `NIL` or a live slot of the page. -/
def SlottedPage.TargetOk (C : Params) (P : SlottedPage) (t : Int) : Prop :=
  t = C.NIL ∨ ∃ i : Nat, t = (i : Int) ∧ i < P.header.nSlots.toNat ∧
    (P.slot i).offset ≠ C.EMPTYSLOT

/-- State of the `for` loop of `EduOM_CompactPage` after the slots `0 .. m-1`. -/
def EduOM_CompactPage.loopState (C : Params) (P : SlottedPage) (t : Int) (m : Nat) :
    CompactState :=
  (List.range m).foldl (EduOM_CompactPage.step C P t) { apage := P, apageDataOffset := 0 }

/-- Bytes of the records that the `for` loop moves while it visits the slots `0 .. m-1`. -/
def EduOM_CompactPage.movedBefore (C : Params) (P : SlottedPage) (t : Int) : Nat → Int
  | 0 => 0
  | m + 1 => EduOM_CompactPage.movedBefore C P t m +
      (if t = (m : Int) ∨ (P.slot (m : Int)).offset = C.EMPTYSLOT then 0
       else P.recSize C (m : Int))

/-! ## Vocabulary for the creation theorems -/

/-- The validation verdict in the words of the specification: the error to report, the
checks being made in this order - catalog reference absent, length negative, payload absent
although the length is positive, aligned length above the large-object threshold - or
`none` when the arguments pass. -/
def validationError (C : Params) (catObjForFile : Option ObjectID) (length : Int)
    (data : Option Bytes) : Option Int :=
  if catObjForFile.isNone then some C.eBADCATALOGOBJECT_OM
  else if length < 0 then some C.eBADLENGTH_OM
  else if 0 < length ∧ data.isNone then some C.eBADUSERBUF_OM
  else if C.LRGOBJ_THRESHOLD < ALIGNED_LENGTH C length then some C.eNOTSUPPORTED_EDUOM
  else none

/-- Needed space of a create: `sizeof(ObjectHdr) + ALIGNED_LENGTH(length) +
sizeof(SlottedPageSlot)` (line 194). -/
def neededSpace (C : Params) (length : Int) : Int :=
  sizeofObjectHdr + ALIGNED_LENGTH C length + C.sizeofSlottedPageSlot

/-- World in which the selection part of `eduom_CreateObject` starts: the catalog page has
been pinned and the first extent asked for (lines 197-202). -/
def eduom_CreateObject.selectionWorld (K : Collab) (cat : ObjectID) (w : World) : World :=
  (World.call K (World.call K w
      (Call.BfM_GetTrain { pageNo := cat.pageNo, volNo := cat.volNo })).2
    (Call.RDsM_PageIdToExtNo
      { pageNo := (w.catEntry cat).firstPage, volNo := (w.catEntry cat).fid.volNo })).2

/-- Number of successful pin calls (`BfM_GetTrain`, `BfM_GetNewTrain` with a code that is
not negative) on the page `pid` among `calls`, the calls made before them being `before`. -/
def successfulPins (K : Collab) (pid : PageID) : List Call → List Call → Nat
  | _, [] => 0
  | before, c :: rest =>
    (if (c = Call.BfM_GetTrain pid ∨ c = Call.BfM_GetNewTrain pid) ∧ 0 ≤ K.ret before c
      then 1 else 0) + successfulPins K pid (before ++ [c]) rest

/-- Number of unpin calls (`BfM_FreeTrain`) on the page `pid` among `calls`. -/
def unpins (pid : PageID) (calls : List Call) : Nat :=
  (calls.filter (fun c => decide (c = Call.BfM_FreeTrain pid))).length

/-- The page-layout invariant: slot count and `free` are not negative, the data area in
use and the slot array do not overlap (`free + nSlots * sizeof(SlottedPageSlot)` is at
most the page size), and the page is structurally valid (live records pairwise disjoint
and inside `[0, free)`). -/
structure SlottedPage.Layout (C : Params) (P : SlottedPage) : Prop where
  nSlots_nonneg : 0 ≤ P.header.nSlots
  free_nonneg : 0 ≤ P.header.free
  noOverlap : P.header.free + P.header.nSlots * C.sizeofSlottedPageSlot ≤ C.PAGESIZE
  valid : P.Valid C

/-- One object move of `EduOM_CompactPage`, seen as memory accesses: the slot entry
`slot[-slot]` is read in the saved page and written in the page; `len` bytes, the object
header among them, are read at `src` in the data area of the saved page and written at
`dst` in the data area of the page. -/
structure Access where
  slot : Int
  src : Int
  dst : Int
  len : Int
deriving DecidableEq

/-- The accesses made by the four statements that move the object of slot `i`
(lines 100-106, 112-116), in the state `st`. -/
def EduOM_CompactPage.access (C : Params) (tpage : SlottedPage) (st : CompactState)
    (i : Int) : Access :=
  { slot := i
    src := (tpage.slot i).offset
    dst := st.apageDataOffset
    len := ALIGNED_LENGTH C (Object.length tpage.data (tpage.slot i).offset) + sizeofObjectHdr }

/-- One iteration of the `for` loop, with the accesses it makes recorded. -/
def EduOM_CompactPage.stepLog (C : Params) (tpage : SlottedPage) (slotNo : Int)
    (sl : CompactState × List Access) (i : Nat) : CompactState × List Access :=
  if slotNo = (i : Int) ∨ (tpage.slot (i : Int)).offset = C.EMPTYSLOT then sl
  else (EduOM_CompactPage.moveObject C tpage sl.1 (i : Int),
        sl.2 ++ [EduOM_CompactPage.access C tpage sl.1 (i : Int)])

/-- State and accesses of the `for` loop after the slots `0 .. m-1`. -/
def EduOM_CompactPage.loopLog (C : Params) (apage : SlottedPage) (slotNo : Int) (m : Nat) :
    CompactState × List Access :=
  (List.range m).foldl (EduOM_CompactPage.stepLog C apage slotNo)
    ({ apage := apage, apageDataOffset := 0 }, [])

/-- The object moves made by `EduOM_CompactPage(apage, slotNo)`, in order. -/
def EduOM_CompactPage.accesses (C : Params) (apage : SlottedPage) (slotNo : Int) :
    List Access :=
  let tpage := apage
  let sl := EduOM_CompactPage.loopLog C apage slotNo apage.header.nSlots.toNat
  if slotNo ≠ C.NIL then sl.2 ++ [EduOM_CompactPage.access C tpage sl.1 slotNo] else sl.2

/-! ## Worked examples -/

/-- Constants of a small build, used in the worked examples. -/
def exampleParams : Params :=
  { ALIGN := 4, sizeofSlottedPageSlot := 8, PAGESIZE := 4000, LRGOBJ_THRESHOLD := 1000
    SP_10SIZE := 400, SP_20SIZE := 800, SP_30SIZE := 1200, SP_40SIZE := 1600
    SP_50SIZE := 2000, EMPTYSLOT := -1, NIL := -1
    eBADCATALOGOBJECT_OM := -11, eBADLENGTH_OM := -12, eBADUSERBUF_OM := -13
    eBADOBJECTID_OM := -14, eNOTSUPPORTED_EDUOM := -15 }

/-- Bytes of the data area of `examplePage`: a 12-byte record (tag 7, length 4) at
offset 0, a 4-byte hole, a 12-byte record (tag 9, length 2) at offset 16, an 8-byte
record (tag 5, length 0) at offset 28. -/
def exampleBytes : List Nat :=
  [0, 0, 7, 0, 4, 0, 0, 0, 170, 187, 204, 221,
   238, 238, 238, 238,
   0, 0, 9, 0, 2, 0, 0, 0, 17, 34, 0, 0,
   0, 0, 5, 0, 0, 0, 0, 0]

/-- A fragmented page with four slots: slot 0 points to the record at offset 16, slot 1
is retired, slot 2 points to the record at offset 0, slot 3 to the record at offset 28. -/
def examplePage : SlottedPage :=
  { header := { flags := 2, nSlots := 4, free := 36, unused := 4, fid := ⟨1, 5⟩ }
    data := fun k => if 0 ≤ k then exampleBytes.getD k.toNat 0 else 0
    slot := fun i =>
      if i = 0 then { offset := 16, unique := 100 }
      else if i = 2 then { offset := 0, unique := 102 }
      else if i = 3 then { offset := 28, unique := 103 }
      else { offset := -1, unique := 0 } }

/-- A page with one record of 3972 payload bytes, which leaves 12 contiguous free bytes. -/
def fullPage : SlottedPage :=
  { header := { flags := 2, nSlots := 1, free := 3980, unused := 0, fid := ⟨1, 5⟩ }
    data := fun k =>
      if 0 ≤ k ∧ k < 8 then ([0, 0, 3, 0, 132, 15, 0, 0] : List Nat).getD k.toNat 0
      else if 8 ≤ k ∧ k < 3980 then 1
      else 0
    slot := fun i => if i = 0 then { offset := 0, unique := 50 } else { offset := -1, unique := 0 } }

/-- The catalog object of the example file. -/
def exampleCat : ObjectID := { pageNo := 1, volNo := 1, slotNo := 0, unique := 0 }

/-- Catalog entry of the example file: pages 10 to 12, all five buckets empty. -/
def exampleCatEntry : sm_CatOverlayForData :=
  { fid := ⟨1, 5⟩, eff := 100, firstPage := 10, lastPage := 12
    availSpaceList10 := -1, availSpaceList20 := -1, availSpaceList30 := -1
    availSpaceList40 := -1, availSpaceList50 := -1 }

/-- A world in which page 11 of volume 1 is `examplePage` and page 12, the last page of
the file, is `fullPage`; no call has been made. -/
def exampleWorld : World :=
  { buffer := fun pid =>
      if pid = { pageNo := 11, volNo := 1 } then examplePage
      else if pid = { pageNo := 12, volNo := 1 } then fullPage
      else zeroPage
    catEntry := fun _ => exampleCatEntry
    calls := [] }

/-- Collaborators that always succeed; the allocator delivers page 13 of volume 1, the
stamp generator the stamp 777. -/
def okCollab : Collab :=
  { ret := fun _ _ => 0
    extNo := fun _ _ => 0
    allocPid := fun _ => { pageNo := 13, volNo := 1 }
    unique := fun _ _ => 777 }

/-- Collaborators that succeed, except that pinning page 11 of volume 1 fails with -1. -/
def failingPinCollab : Collab :=
  { okCollab with
    ret := fun _ c => if c = Call.BfM_GetTrain { pageNo := 11, volNo := 1 } then -1 else 0 }

/-- An object of the example file: slot 0 of page 11. -/
def exampleNear : ObjectID := { pageNo := 11, volNo := 1, slotNo := 0, unique := 100 }

/-- A payload of four bytes. -/
def examplePayload : Bytes :=
  fun k => if 0 ≤ k then ([222, 173, 190, 239] : List Nat).getD k.toNat 0 else 0

/-- Initial contents of the output argument `oid`. -/
def exampleOid : ObjectID := { pageNo := 0, volNo := 0, slotNo := 0, unique := 0 }

/-- Outcome of the create of four payload bytes near `exampleNear` in `exampleWorld` with
`okCollab`: the insertion into page 11 after the four calls of the selection part. -/
def exampleNearOutcome : Outcome :=
  eduom_CreateObject.insertObject exampleParams okCollab exampleCat { properties := 0, tag := 0, length := 0 } 4
    examplePayload exampleOid
    { w := { exampleWorld with
             calls := [Call.BfM_GetTrain { pageNo := 1, volNo := 1 },
                       Call.RDsM_PageIdToExtNo { pageNo := 10, volNo := 1 },
                       Call.BfM_GetTrain { pageNo := 11, volNo := 1 },
                       Call.om_RemoveFromAvailSpaceList exampleCat { pageNo := 11, volNo := 1 }
                         { pageNo := 11, volNo := 1 }] }
      apage := { pageNo := 11, volNo := 1 }
      pid := { pageNo := 11, volNo := 1 } }

/-- A fragmented page: one record of 3872 payload bytes at offset 100, behind a hole of
100 bytes; 12 contiguous free bytes, 112 reclaimable ones. -/
def fragmentedPage : SlottedPage :=
  { header := { flags := 2, nSlots := 1, free := 3980, unused := 100, fid := ⟨1, 5⟩ }
    data := fun k =>
      if 100 ≤ k ∧ k < 108 then ([0, 0, 3, 0, 32, 15, 0, 0] : List Nat).getD (k - 100).toNat 0
      else if 108 ≤ k ∧ k < 3980 then 1
      else 0
    slot := fun i => if i = 0 then { offset := 100, unique := 60 } else { offset := -1, unique := 0 } }

/-- A world like `exampleWorld`, except that page 12, the last page of the file, is
`fragmentedPage`. -/
def fragmentedWorld : World :=
  { buffer := fun pid =>
      if pid = { pageNo := 11, volNo := 1 } then examplePage
      else if pid = { pageNo := 12, volNo := 1 } then fragmentedPage
      else zeroPage
    catEntry := fun _ => exampleCatEntry
    calls := [] }

/-- An object of the example file: slot 0 of page 12. -/
def exampleLast : ObjectID := { pageNo := 12, volNo := 1, slotNo := 0, unique := 60 }

/-- Outcome of the create of four payload bytes near `exampleLast` in `fragmentedWorld`
with `okCollab`: the insertion into page 12 after its compaction. -/
def fragmentedNearOutcome : Outcome :=
  eduom_CreateObject.insertObject exampleParams okCollab exampleCat
    { properties := 0, tag := 0, length := 0 } 4 examplePayload exampleOid
    { w := { fragmentedWorld with
             buffer := Function.update fragmentedWorld.buffer { pageNo := 12, volNo := 1 }
               (EduOM_CompactPage exampleParams
                 (fragmentedWorld.buffer { pageNo := 12, volNo := 1 }) 0).2
             calls := [Call.BfM_GetTrain { pageNo := 1, volNo := 1 },
                       Call.RDsM_PageIdToExtNo { pageNo := 10, volNo := 1 },
                       Call.BfM_GetTrain { pageNo := 12, volNo := 1 },
                       Call.om_RemoveFromAvailSpaceList exampleCat { pageNo := 12, volNo := 1 }
                         { pageNo := 12, volNo := 1 },
                       Call.EduOM_CompactPage { pageNo := 12, volNo := 1 } 0] }
      apage := { pageNo := 12, volNo := 1 }
      pid := { pageNo := 12, volNo := 1 } }

/-- Outcome of the create of four payload bytes near `exampleLast` in `exampleWorld`, where
page 12 is full, with `okCollab`: the insertion into the new page 13. -/
def fullNearOutcome : Outcome :=
  eduom_CreateObject.insertObject exampleParams okCollab exampleCat
    { properties := 0, tag := 0, length := 0 } 4 examplePayload exampleOid
    { w := { exampleWorld with
             buffer := Function.update
               (Function.update exampleWorld.buffer { pageNo := 13, volNo := 1 } zeroPage)
               { pageNo := 13, volNo := 1 }
               { zeroPage with
                 header := { zeroPage.header with flags := 2, free := 0, unused := 0,
                                                  fid := ⟨1, 5⟩ } }
             calls := [Call.BfM_GetTrain { pageNo := 1, volNo := 1 },
                       Call.RDsM_PageIdToExtNo { pageNo := 10, volNo := 1 },
                       Call.BfM_GetTrain { pageNo := 12, volNo := 1 },
                       Call.BfM_FreeTrain { pageNo := 12, volNo := 1 },
                       Call.RDsM_AllocTrains 1 0 { pageNo := 12, volNo := 1 } 100,
                       Call.BfM_GetNewTrain { pageNo := 13, volNo := 1 },
                       Call.om_FileMapAddPage exampleCat { pageNo := 12, volNo := 1 }
                         { pageNo := 13, volNo := 1 }] }
      apage := { pageNo := 13, volNo := 1 }
      pid := { pageNo := 13, volNo := 1 } }

/-- Outcome of the create of four payload bytes with tag 9 near `exampleNear` in
`exampleWorld` with `okCollab`. -/
def taggedNearOutcome : Outcome :=
  eduom_CreateObject.insertObject exampleParams okCollab exampleCat
    { properties := 0, tag := 9, length := 0 } 4 examplePayload exampleOid
    { w := { exampleWorld with
             calls := [Call.BfM_GetTrain { pageNo := 1, volNo := 1 },
                       Call.RDsM_PageIdToExtNo { pageNo := 10, volNo := 1 },
                       Call.BfM_GetTrain { pageNo := 11, volNo := 1 },
                       Call.om_RemoveFromAvailSpaceList exampleCat { pageNo := 11, volNo := 1 }
                         { pageNo := 11, volNo := 1 }] }
      apage := { pageNo := 11, volNo := 1 }
      pid := { pageNo := 11, volNo := 1 } }

/-! ## Facts about the loop of `EduOM_CompactPage` -/

section CompactLoop

variable (C : Params) (P : SlottedPage) (t : Int)

open EduOM_CompactPage

theorem loopState_zero : loopState C P t 0 = { apage := P, apageDataOffset := 0 } := rfl

theorem loopState_succ (m : Nat) :
    loopState C P t (m + 1) = step C P t (loopState C P t m) m := by
  unfold loopState
  rw [List.range_succ, List.foldl_append]
  rfl

theorem run_eq :
    run C P t = if t ≠ C.NIL then moveObject C P (loopState C P t P.header.nSlots.toNat) t
      else loopState C P t P.header.nSlots.toNat := rfl

theorem moveObject_offset (st : CompactState) (i : Int) :
    (moveObject C P st i).apageDataOffset = st.apageDataOffset + P.recSize C i := rfl

theorem moveObject_header (st : CompactState) (i : Int) :
    (moveObject C P st i).apage.header = st.apage.header := rfl

theorem moveObject_slot_ne (st : CompactState) (i j : Int) (h : j ≠ i) :
    (moveObject C P st i).apage.slot j = st.apage.slot j := by
  simp [moveObject, Function.update_noteq h]

theorem moveObject_slot_self (st : CompactState) (i : Int) :
    ((moveObject C P st i).apage.slot i).offset = st.apageDataOffset := by
  simp [moveObject]

theorem moveObject_unique (st : CompactState) (i j : Int) :
    ((moveObject C P st i).apage.slot j).unique = (st.apage.slot j).unique := by
  by_cases h : j = i
  · subst h; simp [moveObject]
  · rw [moveObject_slot_ne C P st i j h]

theorem moveObject_data_in (st : CompactState) (i : Int) (k : Int) (h0 : 0 ≤ k)
    (h1 : k < P.recSize C i) :
    (moveObject C P st i).apage.data (st.apageDataOffset + k) =
      P.data ((P.slot i).offset + k) := by
  have h2 : k < ALIGNED_LENGTH C (Object.length P.data (P.slot i).offset) + sizeofObjectHdr := h1
  simp [moveObject, memcpy, h0, h2]

theorem moveObject_data_below (st : CompactState) (i : Int) (x : Int)
    (h : x < st.apageDataOffset) :
    (moveObject C P st i).apage.data x = st.apage.data x := by
  have : ¬ (st.apageDataOffset ≤ x) := by omega
  simp [moveObject, memcpy, this]

theorem loopState_offset (m : Nat) :
    (loopState C P t m).apageDataOffset = movedBefore C P t m := by
  induction m with
  | zero => rfl
  | succ m ih =>
    rw [loopState_succ, movedBefore]
    unfold step
    split_ifs with h
    · simpa using ih
    · rw [moveObject_offset, ih]

theorem loopState_header (m : Nat) : (loopState C P t m).apage.header = P.header := by
  induction m with
  | zero => rfl
  | succ m ih =>
    rw [loopState_succ]
    unfold step
    split_ifs with h
    · exact ih
    · rw [moveObject_header, ih]

theorem loopState_unique (m : Nat) (j : Int) :
    ((loopState C P t m).apage.slot j).unique = (P.slot j).unique := by
  induction m with
  | zero => rfl
  | succ m ih =>
    rw [loopState_succ]
    unfold step
    split_ifs with h
    · exact ih
    · rw [moveObject_unique, ih]

theorem loopState_slot_untouched (m : Nat) (j : Int)
    (h : ∀ i : Nat, i < m → ¬ (t = (i : Int) ∨ (P.slot (i : Int)).offset = C.EMPTYSLOT) →
      j ≠ (i : Int)) :
    (loopState C P t m).apage.slot j = P.slot j := by
  induction m with
  | zero => rfl
  | succ m ih =>
    have ih1 := ih (fun i hi => h i (Nat.lt_succ_of_lt hi))
    rw [loopState_succ]
    unfold step
    split_ifs with hm
    · exact ih1
    · rw [moveObject_slot_ne C P _ _ _ (h m (Nat.lt_succ_self m) hm), ih1]

theorem movedBefore_succ_le (n : Nat)
    (hsz : ∀ i : Nat, i < n → (P.slot (i : Int)).offset ≠ C.EMPTYSLOT →
      0 ≤ P.recSize C (i : Int))
    (i m : Nat) (him : i < m) (hmn : m ≤ n) :
    movedBefore C P t (i + 1) ≤ movedBefore C P t m := by
  induction m with
  | zero => omega
  | succ m ih =>
    rcases Nat.lt_succ_iff_lt_or_eq.mp him with h | h
    · have h1 := ih h (by omega)
      have h2 : movedBefore C P t m ≤ movedBefore C P t (m + 1) := by
        rw [movedBefore]
        split_ifs with hm
        · omega
        · have := hsz m (by omega) (fun he => hm (Or.inr he))
          omega
      omega
    · subst h; exact le_refl _

theorem movedBefore_nonneg (n : Nat)
    (hsz : ∀ i : Nat, i < n → (P.slot (i : Int)).offset ≠ C.EMPTYSLOT →
      0 ≤ P.recSize C (i : Int))
    (m : Nat) (hmn : m ≤ n) : 0 ≤ movedBefore C P t m := by
  rcases Nat.eq_zero_or_pos m with h | h
  · subst h; simp [movedBefore]
  · have h1 := movedBefore_succ_le C P t n hsz 0 m h hmn
    have h2 : 0 ≤ movedBefore C P t (0 + 1) := by
      rw [movedBefore]
      split_ifs with hm
      · simp [movedBefore]
      · have := hsz 0 (by omega) (fun he => hm (Or.inr he))
        simp only [movedBefore]
        simpa using this
    omega

theorem loopState_slot_offset (m i : Nat) (hi : i < m)
    (hmv : ¬ (t = (i : Int) ∨ (P.slot (i : Int)).offset = C.EMPTYSLOT)) :
    ((loopState C P t m).apage.slot (i : Int)).offset = movedBefore C P t i := by
  induction m with
  | zero => omega
  | succ m ih =>
    rw [loopState_succ]
    rcases Nat.lt_succ_iff_lt_or_eq.mp hi with h | h
    · unfold step
      split_ifs with hm
      · exact ih h
      · rw [moveObject_slot_ne C P _ _ _ (by omega), ih h]
    · subst h
      unfold step
      rw [if_neg hmv, moveObject_slot_self, loopState_offset]

theorem loopState_data (n : Nat)
    (hsz : ∀ i : Nat, i < n → (P.slot (i : Int)).offset ≠ C.EMPTYSLOT →
      0 ≤ P.recSize C (i : Int))
    (m i : Nat) (hi : i < m) (hmn : m ≤ n)
    (hmv : ¬ (t = (i : Int) ∨ (P.slot (i : Int)).offset = C.EMPTYSLOT))
    (k : Int) (h0 : 0 ≤ k) (h1 : k < P.recSize C (i : Int)) :
    (loopState C P t m).apage.data (movedBefore C P t i + k) =
      P.data ((P.slot (i : Int)).offset + k) := by
  induction m with
  | zero => omega
  | succ m ih =>
    rw [loopState_succ]
    rcases Nat.lt_succ_iff_lt_or_eq.mp hi with h | h
    · unfold step
      split_ifs with hm
      · exact ih h (by omega)
      · have hle := movedBefore_succ_le C P t n hsz i m h (by omega)
        rw [movedBefore, if_neg hmv] at hle
        rw [moveObject_data_below, ih h (by omega)]
        rw [loopState_offset]
        omega
    · subst h
      unfold step
      rw [if_neg hmv]
      have := moveObject_data_in C P (loopState C P t i) (i : Int) k h0 h1
      rwa [loopState_offset] at this

end CompactLoop

/-! ## Facts about the page returned by `EduOM_CompactPage` -/

section CompactResult

variable (C : Params) (P : SlottedPage) (t : Int)

open EduOM_CompactPage

theorem ALIGNED_LENGTH_ge (hC : C.WF) (n : Int) (hn : 0 ≤ n) : n ≤ ALIGNED_LENGTH C n := by
  unfold ALIGNED_LENGTH
  have h1 := Int.tmod_lt_of_pos n hC.align_pos
  have h2 := Int.tmod_nonneg C.ALIGN hn
  split_ifs <;> omega

theorem Valid.recSize_pos (hC : C.WF) (hP : P.Valid C) (i : Nat)
    (hi : i < P.header.nSlots.toNat) (hl : (P.slot (i : Int)).offset ≠ C.EMPTYSLOT) :
    sizeofObjectHdr ≤ P.recSize C (i : Int) := by
  have h := (hP.inBounds i hi hl).2.1
  have h2 := ALIGNED_LENGTH_ge C hC _ h
  unfold SlottedPage.recSize
  omega

theorem Valid.recSize_nonneg (hC : C.WF) (hP : P.Valid C) (i : Nat)
    (hi : i < P.header.nSlots.toNat) (hl : (P.slot (i : Int)).offset ≠ C.EMPTYSLOT) :
    0 ≤ P.recSize C (i : Int) := by
  have := Valid.recSize_pos C P hC hP i hi hl
  unfold sizeofObjectHdr at this
  omega

theorem compact_header :
    (EduOM_CompactPage C P t).2.header =
      { P.header with free := (run C P t).apageDataOffset, unused := 0 } := by
  have h : (run C P t).apage.header = P.header := by
    rw [run_eq]
    split_ifs
    · rw [moveObject_header, loopState_header]
    · rw [loopState_header]
  simp [EduOM_CompactPage, h]

theorem compact_unique (j : Int) :
    ((EduOM_CompactPage C P t).2.slot j).unique = (P.slot j).unique := by
  show (((run C P t).apage.slot j).unique = (P.slot j).unique)
  rw [run_eq]
  split_ifs
  · rw [moveObject_unique, loopState_unique]
  · rw [loopState_unique]

theorem compact_slot_untouched (hC : C.WF) (ht : P.TargetOk C t) (j : Int)
    (hj : ∀ i : Nat, i < P.header.nSlots.toNat → (P.slot (i : Int)).offset ≠ C.EMPTYSLOT →
      j ≠ (i : Int)) :
    (EduOM_CompactPage C P t).2.slot j = P.slot j := by
  show (run C P t).apage.slot j = P.slot j
  have hloop : (loopState C P t P.header.nSlots.toNat).apage.slot j = P.slot j :=
    loopState_slot_untouched C P t _ j (fun i hi hmv => hj i hi (fun he => hmv (Or.inr he)))
  rw [run_eq]
  rcases ht with h | ⟨i0, h0, h1, h2⟩
  · rw [if_neg (by simpa using h)]
    exact hloop
  · have hne : t ≠ C.NIL := by have := hC.nil_neg; omega
    rw [if_pos hne, moveObject_slot_ne C P _ _ _ (by rw [h0]; exact hj i0 h1 h2)]
    exact hloop

/-- Offset that compaction gives to the live slot `i`. -/
theorem compact_slot_offset (hC : C.WF) (ht : P.TargetOk C t) (i : Nat)
    (hi : i < P.header.nSlots.toNat) (hl : (P.slot (i : Int)).offset ≠ C.EMPTYSLOT) :
    ((EduOM_CompactPage C P t).2.slot (i : Int)).offset =
      if t = (i : Int) then movedBefore C P t P.header.nSlots.toNat
      else movedBefore C P t i := by
  show ((run C P t).apage.slot (i : Int)).offset = _
  rw [run_eq]
  rcases ht with h | ⟨i0, h0, h1, h2⟩
  · have hti : t ≠ (i : Int) := by have := hC.nil_neg; omega
    rw [if_neg (by simpa using h), if_neg hti]
    exact loopState_slot_offset C P t _ i hi (by tauto)
  · have hne : t ≠ C.NIL := by have := hC.nil_neg; omega
    rw [if_pos hne]
    by_cases hti : t = (i : Int)
    · rw [if_pos hti, hti, moveObject_slot_self, loopState_offset]
    · rw [if_neg hti, moveObject_slot_ne C P _ _ _ (fun he => hti he.symm)]
      exact loopState_slot_offset C P t _ i hi (by tauto)

theorem compact_free :
    (EduOM_CompactPage C P t).2.header.free =
      movedBefore C P t P.header.nSlots.toNat + (if t = C.NIL then 0 else P.recSize C t) := by
  rw [compact_header]
  show (run C P t).apageDataOffset = _
  rw [run_eq]
  by_cases h : t = C.NIL
  · rw [if_neg (by simpa using h), if_pos h, loopState_offset]; simp
  · rw [if_pos h, if_neg h, moveObject_offset, loopState_offset]

/-- The record of a live slot is found unchanged at the slot's new offset. -/
theorem compact_data (hC : C.WF) (ht : P.TargetOk C t)
    (hsz : ∀ i : Nat, i < P.header.nSlots.toNat → (P.slot (i : Int)).offset ≠ C.EMPTYSLOT →
      0 ≤ P.recSize C (i : Int))
    (i : Nat) (hi : i < P.header.nSlots.toNat) (hl : (P.slot (i : Int)).offset ≠ C.EMPTYSLOT)
    (k : Int) (h0 : 0 ≤ k) (h1 : k < P.recSize C (i : Int)) :
    (EduOM_CompactPage C P t).2.data
        (((EduOM_CompactPage C P t).2.slot (i : Int)).offset + k) =
      P.data ((P.slot (i : Int)).offset + k) := by
  rw [compact_slot_offset C P t hC ht i hi hl]
  show (run C P t).apage.data _ = _
  rw [run_eq]
  rcases ht with h | ⟨i0, h0', h1', h2'⟩
  · have hti : t ≠ (i : Int) := by have := hC.nil_neg; omega
    rw [if_neg (by simpa using h), if_neg hti]
    exact loopState_data C P t _ hsz _ i hi (le_refl _) (by tauto) k h0 h1
  · have hne : t ≠ C.NIL := by have := hC.nil_neg; omega
    rw [if_pos hne]
    by_cases hti : t = (i : Int)
    · rw [if_pos hti]
      have := moveObject_data_in C P (loopState C P t P.header.nSlots.toNat) t k h0
        (by rw [hti]; exact h1)
      rw [loopState_offset] at this
      rw [this, hti]
    · rw [if_neg hti]
      have hmv : ¬ (t = (i : Int) ∨ (P.slot (i : Int)).offset = C.EMPTYSLOT) := by tauto
      have hle := movedBefore_succ_le C P t _ hsz i _ hi (le_refl _)
      rw [movedBefore, if_neg hmv] at hle
      rw [moveObject_data_below]
      · exact loopState_data C P t _ hsz _ i hi (le_refl _) hmv k h0 h1
      · rw [loopState_offset]; omega

theorem compact_unused : (EduOM_CompactPage C P t).2.header.unused = 0 := by
  rw [compact_header]

theorem compact_nSlots : (EduOM_CompactPage C P t).2.header.nSlots = P.header.nSlots := by
  rw [compact_header]

theorem liveSum_succ (m : Nat) :
    (((List.range (m + 1)).filter
        (fun i : Nat => decide ((P.slot (i : Int)).offset ≠ C.EMPTYSLOT))).map
      (fun i : Nat => P.recSize C (i : Int))).sum =
    (((List.range m).filter
        (fun i : Nat => decide ((P.slot (i : Int)).offset ≠ C.EMPTYSLOT))).map
      (fun i : Nat => P.recSize C (i : Int))).sum +
      (if (P.slot (m : Int)).offset = C.EMPTYSLOT then 0 else P.recSize C (m : Int)) := by
  rw [List.range_succ, List.filter_append, List.map_append, List.sum_append]
  by_cases h : (P.slot (m : Int)).offset = C.EMPTYSLOT
  · simp [List.filter, h]
  · simp [List.filter, h]

theorem movedBefore_eq_liveSum (m : Nat) (h : ∀ i : Nat, i < m → t ≠ (i : Int)) :
    movedBefore C P t m =
      (((List.range m).filter
          (fun i : Nat => decide ((P.slot (i : Int)).offset ≠ C.EMPTYSLOT))).map
        (fun i : Nat => P.recSize C (i : Int))).sum := by
  induction m with
  | zero => simp [movedBefore]
  | succ m ih =>
    rw [liveSum_succ, movedBefore, ih (fun i hi => h i (Nat.lt_succ_of_lt hi))]
    have hm := h m (Nat.lt_succ_self m)
    simp [hm]

theorem movedBefore_add_target (i0 : Nat) (h0 : t = (i0 : Int))
    (hl : (P.slot (i0 : Int)).offset ≠ C.EMPTYSLOT) (m : Nat) (hm : i0 < m) :
    movedBefore C P t m + P.recSize C t =
      (((List.range m).filter
          (fun i : Nat => decide ((P.slot (i : Int)).offset ≠ C.EMPTYSLOT))).map
        (fun i : Nat => P.recSize C (i : Int))).sum := by
  induction m with
  | zero => omega
  | succ m ih =>
    rw [liveSum_succ, movedBefore]
    rcases Nat.lt_succ_iff_lt_or_eq.mp hm with h | h
    · have hne : t ≠ (m : Int) := by omega
      rw [← ih h]
      simp only [hne, false_or]
      ring
    · subst h
      rw [← movedBefore_eq_liveSum C P t i0 (fun i hi => by omega)]
      simp [h0, hl]

theorem compact_free_eq_liveBytes (hC : C.WF) (ht : P.TargetOk C t) :
    (EduOM_CompactPage C P t).2.header.free = P.liveBytes C := by
  rw [compact_free]
  unfold SlottedPage.liveBytes
  rcases ht with h | ⟨i0, h0, h1, h2⟩
  · rw [if_pos h, add_zero]
    exact movedBefore_eq_liveSum C P t _ (fun i _ => by have := hC.nil_neg; omega)
  · have hne : t ≠ C.NIL := by have := hC.nil_neg; omega
    rw [if_neg hne]
    exact movedBefore_add_target C P t i0 h0 h2 _ h1

theorem readLE_congr (d1 d2 : Bytes) (w : Nat) (o1 o2 : Int)
    (h : ∀ k : Int, 0 ≤ k → k < (w : Int) → d1 (o1 + k) = d2 (o2 + k)) :
    readLE d1 o1 w = readLE d2 o2 w := by
  induction w generalizing o1 o2 with
  | zero => rfl
  | succ w ih =>
    have h0 := h 0 (le_refl _) (by push_cast; omega)
    simp only [add_zero] at h0
    have ih1 := ih (o1 + 1) (o2 + 1) (fun k hk0 hk1 => by
      have := h (1 + k) (by omega) (by push_cast; omega)
      simpa [add_assoc] using this)
    simp only [readLE, h0, ih1]

theorem Object.length_congr (d1 d2 : Bytes) (o1 o2 : Int)
    (h : ∀ k : Int, 0 ≤ k → k < sizeofObjectHdr → d1 (o1 + k) = d2 (o2 + k)) :
    Object.length d1 o1 = Object.length d2 o2 := by
  unfold Object.length
  rw [readLE_congr d1 d2 4 (o1 + 4) (o2 + 4) (fun k hk0 hk1 => by
    have := h (4 + k) (by omega) (by unfold sizeofObjectHdr; push_cast at hk1; omega)
    simpa [add_assoc] using this)]

/-- Compaction keeps the size of every live record. -/
theorem compact_recSize (hC : C.WF) (hP : P.Valid C) (ht : P.TargetOk C t) (i : Nat)
    (hi : i < P.header.nSlots.toNat) (hl : (P.slot (i : Int)).offset ≠ C.EMPTYSLOT) :
    (EduOM_CompactPage C P t).2.recSize C (i : Int) = P.recSize C (i : Int) := by
  have hpos := Valid.recSize_pos C P hC hP i hi hl
  unfold SlottedPage.recSize SlottedPage.recLength
  rw [Object.length_congr _ P.data _ (P.slot (i : Int)).offset (fun k hk0 hk1 =>
    compact_data C P t hC ht (Valid.recSize_nonneg C P hC hP) i hi hl k hk0 (by omega))]

/-- Compaction gives every live slot a non-negative offset. -/
theorem compact_offset_nonneg (hC : C.WF) (hP : P.Valid C) (ht : P.TargetOk C t) (i : Nat)
    (hi : i < P.header.nSlots.toNat) (hl : (P.slot (i : Int)).offset ≠ C.EMPTYSLOT) :
    0 ≤ ((EduOM_CompactPage C P t).2.slot (i : Int)).offset := by
  rw [compact_slot_offset C P t hC ht i hi hl]
  split_ifs
  · exact movedBefore_nonneg C P t _ (Valid.recSize_nonneg C P hC hP) _ (le_refl _)
  · exact movedBefore_nonneg C P t _ (Valid.recSize_nonneg C P hC hP) _ (by omega)

/-- A slot below the slot count is live after compaction exactly when it was live before. -/
theorem compact_live_iff (hC : C.WF) (hP : P.Valid C) (ht : P.TargetOk C t) (i : Nat)
    (hi : i < P.header.nSlots.toNat) :
    ((EduOM_CompactPage C P t).2.slot (i : Int)).offset ≠ C.EMPTYSLOT ↔
      (P.slot (i : Int)).offset ≠ C.EMPTYSLOT := by
  by_cases hl : (P.slot (i : Int)).offset = C.EMPTYSLOT
  · rw [compact_slot_untouched C P t hC ht (i : Int) (fun j _ hj he => by
      have : i = j := by exact_mod_cast he
      subst this; exact hj hl)]
  · have h1 := compact_offset_nonneg C P t hC hP ht i hi hl
    have h2 := hC.emptyslot_neg
    constructor
    · intro _; exact hl
    · intro _; omega

theorem movedBefore_moved (i : Nat)
    (hmv : ¬ (t = (i : Int) ∨ (P.slot (i : Int)).offset = C.EMPTYSLOT)) :
    movedBefore C P t (i + 1) = movedBefore C P t i + P.recSize C (i : Int) := by
  rw [movedBefore, if_neg hmv]

/-- Every byte position below `movedBefore m` lies in the new range of a moved slot. -/
theorem movedBefore_cover (m : Nat) (b : Int) (h0 : 0 ≤ b) (h1 : b < movedBefore C P t m) :
    ∃ i : Nat, i < m ∧ ¬ (t = (i : Int) ∨ (P.slot (i : Int)).offset = C.EMPTYSLOT) ∧
      movedBefore C P t i ≤ b ∧ b < movedBefore C P t i + P.recSize C (i : Int) := by
  induction m with
  | zero => simp [movedBefore] at h1; omega
  | succ m ih =>
    by_cases hb : b < movedBefore C P t m
    · obtain ⟨i, hi, hrest⟩ := ih hb
      exact ⟨i, Nat.lt_succ_of_lt hi, hrest⟩
    · by_cases hmv : t = (m : Int) ∨ (P.slot (m : Int)).offset = C.EMPTYSLOT
      · rw [movedBefore, if_pos hmv] at h1
        omega
      · rw [movedBefore_moved C P t m hmv] at h1
        exact ⟨m, Nat.lt_succ_self m, hmv, by omega, h1⟩

/-- When no earlier slot is moved, nothing has been moved before slot `i`. -/
theorem movedBefore_eq_zero (i : Nat)
    (h : ∀ j : Nat, j < i → (t = (j : Int) ∨ (P.slot (j : Int)).offset = C.EMPTYSLOT)) :
    movedBefore C P t i = 0 := by
  induction i with
  | zero => rfl
  | succ i ih =>
    rw [movedBefore, if_pos (h i (Nat.lt_succ_self i)),
      ih (fun j hj => h j (Nat.lt_succ_of_lt hj))]
    rfl

/-- New byte range of a live slot, in terms of `movedBefore`. -/
theorem compact_range (hC : C.WF) (hP : P.Valid C) (ht : P.TargetOk C t) (i : Nat)
    (hi : i < P.header.nSlots.toNat) (hl : (P.slot (i : Int)).offset ≠ C.EMPTYSLOT) :
    (t = (i : Int) ∧
      ((EduOM_CompactPage C P t).2.slot (i : Int)).offset =
        movedBefore C P t P.header.nSlots.toNat ∧
      ((EduOM_CompactPage C P t).2.slot (i : Int)).offset +
        (EduOM_CompactPage C P t).2.recSize C (i : Int) =
        (EduOM_CompactPage C P t).2.header.free) ∨
    (t ≠ (i : Int) ∧
      ((EduOM_CompactPage C P t).2.slot (i : Int)).offset = movedBefore C P t i ∧
      ((EduOM_CompactPage C P t).2.slot (i : Int)).offset +
        (EduOM_CompactPage C P t).2.recSize C (i : Int) = movedBefore C P t (i + 1)) := by
  rw [compact_recSize C P t hC hP ht i hi hl, compact_slot_offset C P t hC ht i hi hl,
    compact_free]
  by_cases hti : t = (i : Int)
  · left
    have hne : t ≠ C.NIL := by have := hC.nil_neg; omega
    rw [if_pos hti, if_neg hne]
    exact ⟨hti, rfl, by rw [hti]⟩
  · right
    rw [if_neg hti, movedBefore_moved C P t i (by tauto)]
    exact ⟨hti, rfl, rfl⟩

theorem compact_free_ge (hC : C.WF) (hP : P.Valid C) (ht : P.TargetOk C t) :
    movedBefore C P t P.header.nSlots.toNat ≤ (EduOM_CompactPage C P t).2.header.free := by
  rw [compact_free]
  rcases ht with h | ⟨i0, h0, h1, h2⟩
  · rw [if_pos h]; omega
  · have hne : t ≠ C.NIL := by have := hC.nil_neg; omega
    have := Valid.recSize_nonneg C P hC hP i0 h1 h2
    rw [if_neg hne, h0]
    omega

theorem compact_liveBytes (hC : C.WF) (hP : P.Valid C) (ht : P.TargetOk C t) :
    (EduOM_CompactPage C P t).2.liveBytes C = P.liveBytes C := by
  unfold SlottedPage.liveBytes
  rw [compact_nSlots]
  have hf : (List.range P.header.nSlots.toNat).filter
      (fun i : Nat =>
        decide (((EduOM_CompactPage C P t).2.slot (i : Int)).offset ≠ C.EMPTYSLOT)) =
      (List.range P.header.nSlots.toNat).filter
      (fun i : Nat => decide ((P.slot (i : Int)).offset ≠ C.EMPTYSLOT)) := by
    apply List.filter_congr
    intro i hi
    have := compact_live_iff C P t hC hP ht i (List.mem_range.mp hi)
    simp only [decide_eq_decide]
    exact this
  rw [hf]
  congr 1
  apply List.map_congr_left
  intro i hi
  rw [List.mem_filter] at hi
  exact compact_recSize C P t hC hP ht i (List.mem_range.mp hi.1) (by simpa using hi.2)

theorem liveBytes_eq_finset_sum (C : Params) (P : SlottedPage) (m : Nat) :
    (((List.range m).filter
        (fun i : Nat => decide ((P.slot (i : Int)).offset ≠ C.EMPTYSLOT))).map
      (fun i : Nat => P.recSize C (i : Int))).sum =
    ∑ i ∈ (Finset.range m).filter (fun i : Nat => (P.slot (i : Int)).offset ≠ C.EMPTYSLOT),
      P.recSize C (i : Int) := by
  induction m with
  | zero => simp
  | succ m ih =>
    rw [liveSum_succ, ih, Finset.range_succ, Finset.filter_insert]
    by_cases h : (P.slot (m : Int)).offset = C.EMPTYSLOT
    · simp [h]
    · rw [if_neg h, if_pos h, Finset.sum_insert (by simp), add_comm]

/-- On a structurally valid page the live records fit below `free`: the sum of their sizes
is at most `free`. -/
theorem Valid.liveBytes_le_free (C : Params) (P : SlottedPage) (hC : C.WF) (hP : P.Valid C)
    (hfree : 0 ≤ P.header.free) : P.liveBytes C ≤ P.header.free := by
  unfold SlottedPage.liveBytes
  rw [liveBytes_eq_finset_sum]
  set s := (Finset.range P.header.nSlots.toNat).filter
    (fun i : Nat => (P.slot (i : Int)).offset ≠ C.EMPTYSLOT) with hs
  have hmem : ∀ i ∈ s, i < P.header.nSlots.toNat ∧ (P.slot (i : Int)).offset ≠ C.EMPTYSLOT := by
    intro i hi
    rw [hs, Finset.mem_filter, Finset.mem_range] at hi
    exact hi
  have hdisj : ∀ i ∈ s, ∀ j ∈ s, i ≠ j →
      Disjoint (Finset.Ico (P.slot (i : Int)).offset ((P.slot (i : Int)).offset + P.recSize C (i : Int)))
        (Finset.Ico (P.slot (j : Int)).offset ((P.slot (j : Int)).offset + P.recSize C (j : Int))) := by
    intro i hi j hj hij
    rw [Finset.disjoint_left]
    intro a ha hb
    rw [Finset.mem_Ico] at ha hb
    have := hP.disjoint i (hmem i hi).1 j (hmem j hj).1 (hmem i hi).2 (hmem j hj).2 hij
    omega
  have hsub : s.biUnion (fun i : Nat =>
      Finset.Ico (P.slot (i : Int)).offset ((P.slot (i : Int)).offset + P.recSize C (i : Int))) ⊆
      Finset.Ico 0 P.header.free := by
    intro a ha
    rw [Finset.mem_biUnion] at ha
    obtain ⟨i, hi, hai⟩ := ha
    rw [Finset.mem_Ico] at hai ⊢
    have := hP.inBounds i (hmem i hi).1 (hmem i hi).2
    omega
  have hcard := Finset.card_le_card hsub
  rw [Finset.card_biUnion hdisj, Int.card_Ico] at hcard
  have hsum : (∑ i ∈ s, P.recSize C (i : Int)) =
      ((∑ i ∈ s, (Finset.Ico (P.slot (i : Int)).offset
        ((P.slot (i : Int)).offset + P.recSize C (i : Int))).card : Nat) : Int) := by
    rw [Nat.cast_sum]
    apply Finset.sum_congr rfl
    intro i hi
    have := Valid.recSize_nonneg C P hC hP i (hmem i hi).1 (hmem i hi).2
    rw [Int.card_Ico]
    simp only [add_sub_cancel_left]
    omega
  rw [hsum]
  omega

/-- Compaction does not enlarge the data area in use: the new `free` is at most the old
one. -/
theorem compact_free_le (C : Params) (P : SlottedPage) (t : Int) (hC : C.WF) (hP : P.Valid C)
    (ht : P.TargetOk C t) (hfree : 0 ≤ P.header.free) :
    (EduOM_CompactPage C P t).2.header.free ≤ P.header.free := by
  rw [compact_free_eq_liveBytes C P t hC ht]
  exact Valid.liveBytes_le_free C P hC hP hfree

/-- No wrap-around in the loop: on a structurally valid page every value taken by
`apageDataOffset` lies between 0 and the old `free`, a value of the C type of `free`. -/
theorem loopState_offset_bounded (C : Params) (P : SlottedPage) (t : Int) (hC : C.WF)
    (hP : P.Valid C) (ht : P.TargetOk C t) (hfree : 0 ≤ P.header.free) (m : Nat)
    (hm : m ≤ P.header.nSlots.toNat) :
    0 ≤ (loopState C P t m).apageDataOffset ∧
      (loopState C P t m).apageDataOffset ≤ P.header.free := by
  have hsz := Valid.recSize_nonneg C P hC hP
  rw [loopState_offset]
  refine ⟨movedBefore_nonneg C P t _ hsz m hm, ?_⟩
  have h1 := compact_free_ge C P t hC hP ht
  have h2 := compact_free_le C P t hC hP ht hfree
  have h3 : movedBefore C P t m ≤ movedBefore C P t P.header.nSlots.toNat := by
    rcases Nat.eq_or_lt_of_le hm with h | h
    · rw [h]
    · have h4 := movedBefore_succ_le C P t _ hsz m _ h (le_refl _)
      have h5 : movedBefore C P t m ≤ movedBefore C P t (m + 1) := by
        rw [movedBefore]
        split_ifs with hmv
        · omega
        · have := hsz m h (fun he => hmv (Or.inr he))
          omega
      omega
  omega

theorem loopLog_succ (C : Params) (P : SlottedPage) (t : Int) (m : Nat) :
    loopLog C P t (m + 1) = stepLog C P t (loopLog C P t m) m := by
  unfold loopLog
  rw [List.range_succ, List.foldl_append]
  rfl

theorem loopLog_state (C : Params) (P : SlottedPage) (t : Int) (m : Nat) :
    (loopLog C P t m).1 = loopState C P t m := by
  induction m with
  | zero => rfl
  | succ m ih =>
    rw [loopLog_succ, loopState_succ]
    unfold stepLog step
    split_ifs with h
    · exact ih
    · simp only [ih]

theorem loopLog_mem (C : Params) (P : SlottedPage) (t : Int) (m : Nat) (a : Access)
    (ha : a ∈ (loopLog C P t m).2) :
    ∃ i : Nat, i < m ∧ ¬ (t = (i : Int) ∨ (P.slot (i : Int)).offset = C.EMPTYSLOT) ∧
      a = { slot := (i : Int), src := (P.slot (i : Int)).offset, dst := movedBefore C P t i,
            len := P.recSize C (i : Int) } := by
  induction m with
  | zero => simp [loopLog] at ha
  | succ m ih =>
    rw [loopLog_succ] at ha
    unfold stepLog at ha
    split_ifs at ha with h
    · obtain ⟨i, hi, hrest⟩ := ih ha
      exact ⟨i, Nat.lt_succ_of_lt hi, hrest⟩
    · simp only [List.mem_append, List.mem_singleton] at ha
      rcases ha with ha | ha
      · obtain ⟨i, hi, hrest⟩ := ih ha
        exact ⟨i, Nat.lt_succ_of_lt hi, hrest⟩
      · refine ⟨m, Nat.lt_succ_self m, h, ?_⟩
        rw [ha, loopLog_state]
        simp only [access, loopState_offset]
        rfl

/-- Compaction keeps the length field of every live record. -/
theorem compact_recLength (C : Params) (P : SlottedPage) (t : Int) (hC : C.WF)
    (hP : P.Valid C) (ht : P.TargetOk C t) (i : Nat) (hi : i < P.header.nSlots.toNat)
    (hl : (P.slot (i : Int)).offset ≠ C.EMPTYSLOT) :
    (EduOM_CompactPage C P t).2.recLength (i : Int) = P.recLength (i : Int) := by
  have hpos := Valid.recSize_pos C P hC hP i hi hl
  unfold SlottedPage.recLength
  exact Object.length_congr _ P.data _ (P.slot (i : Int)).offset (fun k hk0 hk1 =>
    compact_data C P t hC ht (Valid.recSize_nonneg C P hC hP) i hi hl k hk0 (by omega))

/-- Compaction gives a structurally valid page. -/
theorem compact_valid (C : Params) (P : SlottedPage) (t : Int) (hC : C.WF) (hP : P.Valid C)
    (ht : P.TargetOk C t) : (EduOM_CompactPage C P t).2.Valid C := by
  have hsz := Valid.recSize_nonneg C P hC hP
  have hge := compact_free_ge C P t hC hP ht
  constructor
  · intro i hi hl
    rw [compact_nSlots] at hi
    have hlp := (compact_live_iff C P t hC hP ht i hi).mp hl
    refine ⟨compact_offset_nonneg C P t hC hP ht i hi hlp, ?_, ?_⟩
    · rw [compact_recLength C P t hC hP ht i hi hlp]
      exact (hP.inBounds i hi hlp).2.1
    · rcases compact_range C P t hC hP ht i hi hlp with ⟨_, _, h⟩ | ⟨_, _, h⟩
      · omega
      · have := movedBefore_succ_le C P t _ hsz i _ hi (le_refl _)
        omega
  · intro i hi j hj hli hlj hij
    rw [compact_nSlots] at hi hj
    have hlip := (compact_live_iff C P t hC hP ht i hi).mp hli
    have hljp := (compact_live_iff C P t hC hP ht j hj).mp hlj
    rcases compact_range C P t hC hP ht i hi hlip with ⟨hti, hoi, hei⟩ | ⟨hti, hoi, hei⟩ <;>
      rcases compact_range C P t hC hP ht j hj hljp with ⟨htj, hoj, hej⟩ | ⟨htj, hoj, hej⟩
    · omega
    · right
      have := movedBefore_succ_le C P t _ hsz j _ hj (le_refl _)
      omega
    · left
      have := movedBefore_succ_le C P t _ hsz i _ hi (le_refl _)
      omega
    · rcases Nat.lt_or_gt_of_ne hij with h | h
      · left
        have := movedBefore_succ_le C P t _ hsz i j h (by omega)
        omega
      · right
        have := movedBefore_succ_le C P t _ hsz j i h (by omega)
        omega

/-- Compaction preserves the page-layout invariant. -/
theorem compact_layout (C : Params) (P : SlottedPage) (t : Int) (hC : C.WF) (hL : P.Layout C)
    (ht : P.TargetOk C t) : (EduOM_CompactPage C P t).2.Layout C := by
  have hle := compact_free_le C P t hC hL.valid ht hL.free_nonneg
  have hge := compact_free_ge C P t hC hL.valid ht
  have hnn := movedBefore_nonneg C P t _ (Valid.recSize_nonneg C P hC hL.valid)
    P.header.nSlots.toNat (le_refl _)
  refine ⟨?_, ?_, ?_, compact_valid C P t hC hL.valid ht⟩
  · rw [compact_nSlots]; exact hL.nSlots_nonneg
  · omega
  · rw [compact_nSlots]
    have := hL.noOverlap
    omega

end CompactResult

/-! ## Worked examples: validity -/

theorem exampleParams_WF : exampleParams.WF := by
  constructor <;> decide

theorem examplePage_target_zero : examplePage.TargetOk exampleParams 0 :=
  Or.inr ⟨0, rfl, by decide, by decide⟩

theorem examplePage_valid : examplePage.Valid exampleParams := by
  constructor
  · decide
  · intro i hi j hj
    have hi4 : i < 4 := hi
    have hj4 : j < 4 := hj
    interval_cases i <;> interval_cases j <;> decide

theorem examplePage_layout : examplePage.Layout exampleParams :=
  ⟨by decide, by decide, by decide, examplePage_valid⟩

theorem fragmentedPage_valid : fragmentedPage.Valid exampleParams := by
  constructor
  · intro i hi
    have hi1 : i < 1 := hi
    interval_cases i
    decide
  · intro i hi j hj
    have hi1 : i < 1 := hi
    have hj1 : j < 1 := hj
    interval_cases i
    interval_cases j
    decide

/-! ## Compaction: the claims -/

section CompactClaims

open EduOM_CompactPage


/-- C1: for a structurally valid page `P` and a live slot `i` below the slot count, after
`EduOM_CompactPage(P, NIL)` slot `i` is still live (below the slot count, offset not
`EMPTYSLOT`), its record has the same size, and the record bytes (object header plus
aligned payload) at the slot's new offset are byte for byte the record bytes at its old
offset in `P`. -/
theorem compactPage_preserves_records (C : Params) (hC : C.WF) (P : SlottedPage)
    (hP : P.Valid C) (i : Nat) (hi : i < P.header.nSlots.toNat)
    (hl : (P.slot (i : Int)).offset ≠ C.EMPTYSLOT) :
    i < (EduOM_CompactPage C P C.NIL).2.header.nSlots.toNat ∧
    ((EduOM_CompactPage C P C.NIL).2.slot (i : Int)).offset ≠ C.EMPTYSLOT ∧
    (EduOM_CompactPage C P C.NIL).2.recSize C (i : Int) = P.recSize C (i : Int) ∧
    ∀ k : Int, 0 ≤ k → k < P.recSize C (i : Int) →
      (EduOM_CompactPage C P C.NIL).2.data
          (((EduOM_CompactPage C P C.NIL).2.slot (i : Int)).offset + k) =
        P.data ((P.slot (i : Int)).offset + k) := by
  have ht : P.TargetOk C C.NIL := Or.inl rfl
  refine ⟨?_, ?_, ?_, ?_⟩
  · rw [compact_nSlots]; exact hi
  · exact (compact_live_iff C P C.NIL hC hP ht i hi).mpr hl
  · exact compact_recSize C P C.NIL hC hP ht i hi hl
  · intro k h0 h1
    exact compact_data C P C.NIL hC ht (Valid.recSize_nonneg C P hC hP) i hi hl k h0 h1

theorem compactPage_preserves_records_witness :
    examplePage.Valid exampleParams ∧
    ((EduOM_CompactPage exampleParams examplePage exampleParams.NIL).2.slot
      ((2 : Nat) : Int)).offset ≠ exampleParams.EMPTYSLOT ∧
    (EduOM_CompactPage exampleParams examplePage exampleParams.NIL).2.data
        (((EduOM_CompactPage exampleParams examplePage exampleParams.NIL).2.slot
          ((2 : Nat) : Int)).offset + 8) =
      examplePage.data ((examplePage.slot ((2 : Nat) : Int)).offset + 8) :=
  have h := compactPage_preserves_records exampleParams exampleParams_WF examplePage
    examplePage_valid 2 (by decide) (by decide)
  ⟨examplePage_valid, h.2.1, h.2.2.2 8 (by decide) (by decide)⟩

/-- C2: for a structurally valid page `P` and a target `t` that is `NIL` or a live slot,
after `EduOM_CompactPage(P, t)` the field `unused` is 0, the field `free` is the sum over
the live slots below the slot count of `sizeof(ObjectHdr) + ALIGNED_LENGTH(length)` (the
same sum before and after), and the live records occupy exactly `[0, free)`: each new
range lies in `[0, free)`, two different live records have disjoint ranges, and every
byte position of `[0, free)` belongs to the range of a live record. -/
theorem compactPage_free_unused (C : Params) (hC : C.WF) (P : SlottedPage) (hP : P.Valid C)
    (t : Int) (ht : P.TargetOk C t) (Q : SlottedPage) (hQ : Q = (EduOM_CompactPage C P t).2) :
    Q.header.unused = 0 ∧
    Q.header.free = P.liveBytes C ∧
    Q.liveBytes C = P.liveBytes C ∧
    (∀ i : Nat, i < P.header.nSlots.toNat → (P.slot (i : Int)).offset ≠ C.EMPTYSLOT →
      0 ≤ (Q.slot (i : Int)).offset ∧
        (Q.slot (i : Int)).offset + Q.recSize C (i : Int) ≤ Q.header.free) ∧
    (∀ i j : Nat, i < P.header.nSlots.toNat → j < P.header.nSlots.toNat →
      (P.slot (i : Int)).offset ≠ C.EMPTYSLOT → (P.slot (j : Int)).offset ≠ C.EMPTYSLOT →
      i ≠ j →
      (Q.slot (i : Int)).offset + Q.recSize C (i : Int) ≤ (Q.slot (j : Int)).offset ∨
        (Q.slot (j : Int)).offset + Q.recSize C (j : Int) ≤ (Q.slot (i : Int)).offset) ∧
    (∀ b : Int, 0 ≤ b → b < Q.header.free →
      ∃ i : Nat, i < P.header.nSlots.toNat ∧ (P.slot (i : Int)).offset ≠ C.EMPTYSLOT ∧
        (Q.slot (i : Int)).offset ≤ b ∧ b < (Q.slot (i : Int)).offset + Q.recSize C (i : Int)) := by
  subst hQ
  have hsz := Valid.recSize_nonneg C P hC hP
  have hge := compact_free_ge C P t hC hP ht
  refine ⟨compact_unused C P t, compact_free_eq_liveBytes C P t hC ht,
    compact_liveBytes C P t hC hP ht, ?_, ?_, ?_⟩
  · intro i hi hl
    refine ⟨compact_offset_nonneg C P t hC hP ht i hi hl, ?_⟩
    rcases compact_range C P t hC hP ht i hi hl with ⟨_, _, h⟩ | ⟨_, _, h⟩
    · omega
    · have := movedBefore_succ_le C P t _ hsz i _ hi (le_refl _)
      omega
  · intro i j hi hj hli hlj hij
    rcases compact_range C P t hC hP ht i hi hli with ⟨hti, hoi, hei⟩ | ⟨hti, hoi, hei⟩ <;>
      rcases compact_range C P t hC hP ht j hj hlj with ⟨htj, hoj, hej⟩ | ⟨htj, hoj, hej⟩
    · omega
    · right
      have := movedBefore_succ_le C P t _ hsz j _ hj (le_refl _)
      omega
    · left
      have := movedBefore_succ_le C P t _ hsz i _ hi (le_refl _)
      omega
    · rcases Nat.lt_or_gt_of_ne hij with h | h
      · left
        have := movedBefore_succ_le C P t _ hsz i j h (by omega)
        omega
      · right
        have := movedBefore_succ_le C P t _ hsz j i h (by omega)
        omega
  · intro b hb0 hb1
    by_cases hb : b < movedBefore C P t P.header.nSlots.toNat
    · obtain ⟨i, hi, hmv, h1, h2⟩ := movedBefore_cover C P t _ b hb0 hb
      have hl : (P.slot (i : Int)).offset ≠ C.EMPTYSLOT := fun he => hmv (Or.inr he)
      refine ⟨i, hi, hl, ?_⟩
      rcases compact_range C P t hC hP ht i hi hl with ⟨hti, _, _⟩ | ⟨_, hoi, hei⟩
      · exact absurd (Or.inl hti) hmv
      · rw [movedBefore_moved C P t i hmv] at hei
        omega
    · rcases ht with h | ⟨i0, h0, h1, h2⟩
      · rw [compact_free, if_pos h] at hb1
        omega
      · refine ⟨i0, h1, h2, ?_⟩
        rcases compact_range C P t hC hP (Or.inr ⟨i0, h0, h1, h2⟩) i0 h1 h2 with
          ⟨_, hoi, hei⟩ | ⟨hti, _, _⟩
        · omega
        · exact absurd h0 hti

theorem compactPage_free_unused_witness :
    examplePage.Valid exampleParams ∧ examplePage.TargetOk exampleParams 0 ∧
    (EduOM_CompactPage exampleParams examplePage 0).2.header.unused = 0 ∧
    (EduOM_CompactPage exampleParams examplePage 0).2.header.free =
      examplePage.liveBytes exampleParams :=
  have h := compactPage_free_unused exampleParams exampleParams_WF examplePage
    examplePage_valid 0 examplePage_target_zero _ rfl
  ⟨examplePage_valid, examplePage_target_zero, h.1, h.2.1⟩

/-- C3: for a structurally valid page `P` and a live slot `t` below the slot count, after
`EduOM_CompactPage(P, t)` (1) the record of `t` is the last one of the compacted run, its
new offset plus its size being the new `free`; (2) for two live slots `i < j` different
from `t` the new offset of `i` is strictly less than the new offset of `j`; and the first
live slot different from `t` is at offset 0. -/
theorem compactPage_target_last (C : Params) (hC : C.WF) (P : SlottedPage) (hP : P.Valid C)
    (t : Nat) (ht : t < P.header.nSlots.toNat) (hlt : (P.slot (t : Int)).offset ≠ C.EMPTYSLOT)
    (Q : SlottedPage) (hQ : Q = (EduOM_CompactPage C P (t : Int)).2) :
    (Q.slot (t : Int)).offset + Q.recSize C (t : Int) = Q.header.free ∧
    (∀ i j : Nat, i < j → j < P.header.nSlots.toNat →
      (P.slot (i : Int)).offset ≠ C.EMPTYSLOT → (P.slot (j : Int)).offset ≠ C.EMPTYSLOT →
      i ≠ t → j ≠ t → (Q.slot (i : Int)).offset < (Q.slot (j : Int)).offset) ∧
    (∀ i : Nat, i < P.header.nSlots.toNat → (P.slot (i : Int)).offset ≠ C.EMPTYSLOT → i ≠ t →
      (∀ j : Nat, j < i → (P.slot (j : Int)).offset ≠ C.EMPTYSLOT → j = t) →
      (Q.slot (i : Int)).offset = 0) := by
  subst hQ
  have hT : P.TargetOk C (t : Int) := Or.inr ⟨t, rfl, ht, hlt⟩
  have hsz := Valid.recSize_nonneg C P hC hP
  refine ⟨?_, ?_, ?_⟩
  · rcases compact_range C P t hC hP hT t ht hlt with ⟨_, _, h⟩ | ⟨h, _, _⟩
    · exact h
    · exact absurd rfl h
  · intro i j hij hj hli hlj hit hjt
    have hi : i < P.header.nSlots.toNat := by omega
    have hpos := Valid.recSize_pos C P hC hP i hi hli
    rw [← compact_recSize C P t hC hP hT i hi hli] at hpos
    unfold sizeofObjectHdr at hpos
    rcases compact_range C P t hC hP hT i hi hli with ⟨hti, _, _⟩ | ⟨_, hoi, hei⟩
    · exact absurd (by exact_mod_cast hti.symm) hit
    · rcases compact_range C P t hC hP hT j hj hlj with ⟨htj, _, _⟩ | ⟨_, hoj, _⟩
      · exact absurd (by exact_mod_cast htj.symm) hjt
      · have := movedBefore_succ_le C P t _ hsz i j hij (by omega)
        omega
  · intro i hi hli hit hfirst
    rcases compact_range C P t hC hP hT i hi hli with ⟨hti, _, _⟩ | ⟨_, hoi, _⟩
    · exact absurd (by exact_mod_cast hti.symm) hit
    · rw [hoi]
      apply movedBefore_eq_zero
      intro j hj
      by_cases hlj : (P.slot (j : Int)).offset = C.EMPTYSLOT
      · exact Or.inr hlj
      · left
        rw [hfirst j hj hlj]

theorem compactPage_target_last_witness :
    examplePage.Valid exampleParams ∧
    ((EduOM_CompactPage exampleParams examplePage ((0 : Nat) : Int)).2.slot
        ((0 : Nat) : Int)).offset +
      (EduOM_CompactPage exampleParams examplePage ((0 : Nat) : Int)).2.recSize exampleParams
        ((0 : Nat) : Int) =
      (EduOM_CompactPage exampleParams examplePage ((0 : Nat) : Int)).2.header.free ∧
    ((EduOM_CompactPage exampleParams examplePage ((0 : Nat) : Int)).2.slot
        ((2 : Nat) : Int)).offset = 0 :=
  have h := compactPage_target_last exampleParams exampleParams_WF examplePage
    examplePage_valid 0 (by decide) (by decide) _ rfl
  ⟨examplePage_valid, h.1, h.2.2 2 (by decide) (by decide) (by decide) (by decide)⟩

/-- C5: for a structurally valid page `P` and a target `t` that is `NIL` or live,
`EduOM_CompactPage(P, t)` leaves the slot count, the owning-file id, the flags and every
slot's uniqueness stamp unchanged; a slot below the slot count is live afterwards exactly
when it was live before; and every live slot designates the same record afterwards (same
size, same bytes), so an object identifier (page, slot index, stamp) valid before the call
designates the same record after it. -/
theorem compactPage_frame (C : Params) (hC : C.WF) (P : SlottedPage) (hP : P.Valid C)
    (t : Int) (ht : P.TargetOk C t) (Q : SlottedPage) (hQ : Q = (EduOM_CompactPage C P t).2) :
    Q.header.nSlots = P.header.nSlots ∧
    Q.header.fid = P.header.fid ∧
    Q.header.flags = P.header.flags ∧
    (∀ j : Int, (Q.slot j).unique = (P.slot j).unique) ∧
    (∀ i : Nat, i < P.header.nSlots.toNat →
      ((Q.slot (i : Int)).offset ≠ C.EMPTYSLOT ↔ (P.slot (i : Int)).offset ≠ C.EMPTYSLOT)) ∧
    (∀ i : Nat, i < P.header.nSlots.toNat → (P.slot (i : Int)).offset ≠ C.EMPTYSLOT →
      Q.recSize C (i : Int) = P.recSize C (i : Int) ∧
      ∀ k : Int, 0 ≤ k → k < P.recSize C (i : Int) →
        Q.data ((Q.slot (i : Int)).offset + k) = P.data ((P.slot (i : Int)).offset + k)) := by
  subst hQ
  refine ⟨compact_nSlots C P t, by rw [compact_header], by rw [compact_header],
    compact_unique C P t, compact_live_iff C P t hC hP ht, ?_⟩
  intro i hi hl
  exact ⟨compact_recSize C P t hC hP ht i hi hl, fun k h0 h1 =>
    compact_data C P t hC ht (Valid.recSize_nonneg C P hC hP) i hi hl k h0 h1⟩

theorem compactPage_frame_witness :
    examplePage.Valid exampleParams ∧ examplePage.TargetOk exampleParams 0 ∧
    (EduOM_CompactPage exampleParams examplePage 0).2.header.nSlots =
      examplePage.header.nSlots ∧
    ((EduOM_CompactPage exampleParams examplePage 0).2.slot 2).unique =
      (examplePage.slot 2).unique :=
  have h := compactPage_frame exampleParams exampleParams_WF examplePage examplePage_valid 0
    examplePage_target_zero _ rfl
  ⟨examplePage_valid, examplePage_target_zero, h.1, h.2.2.2.1 2⟩

/-- C18: `EduOM_CompactPage` succeeds on a page that satisfies the layout invariant, for a
target that is `NIL` or a live slot: it returns `eNOERROR`, and every object move it makes
uses a slot entry below the slot count, reads its bytes (object header included) inside
`[0, free)` of the saved page and writes them inside `[0, free)` of the page, `free` being
at most the page size less the slot array, so inside the data area. -/
theorem compactPage_accesses_in_bounds (C : Params) (hC : C.WF) (P : SlottedPage)
    (hL : P.Layout C) (t : Int) (ht : P.TargetOk C t) :
    (EduOM_CompactPage C P t).1 = eNOERROR ∧
    P.header.free ≤ C.PAGESIZE - P.header.nSlots * C.sizeofSlottedPageSlot ∧
    ∀ a ∈ accesses C P t,
      0 ≤ a.slot ∧ a.slot < P.header.nSlots ∧
      sizeofObjectHdr ≤ a.len ∧
      0 ≤ a.src ∧ a.src + a.len ≤ P.header.free ∧
      0 ≤ a.dst ∧ a.dst + a.len ≤ P.header.free := by
  have hP := hL.valid
  have hsz := Valid.recSize_nonneg C P hC hP
  have hge := compact_free_ge C P t hC hP ht
  have hle := compact_free_le C P t hC hP ht hL.free_nonneg
  refine ⟨rfl, by have := hL.noOverlap; omega, ?_⟩
  intro a ha
  unfold accesses at ha
  simp only [] at ha
  have hloop : ∀ b ∈ (loopLog C P t P.header.nSlots.toNat).2,
      0 ≤ b.slot ∧ b.slot < P.header.nSlots ∧ sizeofObjectHdr ≤ b.len ∧
      0 ≤ b.src ∧ b.src + b.len ≤ P.header.free ∧
      0 ≤ b.dst ∧ b.dst + b.len ≤ P.header.free := by
    intro b hb
    obtain ⟨i, hi, hmv, hbe⟩ := loopLog_mem C P t _ b hb
    have hl : (P.slot (i : Int)).offset ≠ C.EMPTYSLOT := fun he => hmv (Or.inr he)
    have hib := hP.inBounds i hi hl
    have hpos := Valid.recSize_pos C P hC hP i hi hl
    have h1 := movedBefore_succ_le C P t _ hsz i _ hi (le_refl _)
    rw [movedBefore_moved C P t i hmv] at h1
    have h0 := movedBefore_nonneg C P t _ hsz i (by omega)
    rw [hbe]
    simp only []
    refine ⟨by omega, by omega, hpos, hib.1, hib.2.2, h0, by omega⟩
  by_cases hnil : t = C.NIL
  · rw [if_neg (by simpa using hnil)] at ha
    exact hloop a ha
  · rw [if_pos hnil] at ha
    simp only [List.mem_append, List.mem_singleton] at ha
    rcases ha with ha | ha
    · exact hloop a ha
    · rcases ht with h | ⟨i0, h0, h1, h2⟩
      · exact absurd h hnil
      · subst h0
        have hib := hP.inBounds i0 h1 h2
        have hpos := Valid.recSize_pos C P hC hP i0 h1 h2
        have hfree := compact_free C P (i0 : Int)
        rw [if_neg hnil] at hfree
        have hnn := movedBefore_nonneg C P (i0 : Int) _ hsz P.header.nSlots.toNat (le_refl _)
        rw [ha, loopLog_state]
        simp only [access, loopState_offset]
        have hrs : ALIGNED_LENGTH C (Object.length P.data (P.slot (i0 : Int)).offset) +
            sizeofObjectHdr = P.recSize C (i0 : Int) := rfl
        rw [hrs]
        refine ⟨by omega, by omega, hpos, hib.1, hib.2.2, hnn, by omega⟩

theorem compactPage_accesses_in_bounds_witness :
    examplePage.Layout exampleParams ∧ examplePage.TargetOk exampleParams 0 ∧
    (16 : Int) + 12 ≤ examplePage.header.free ∧ (20 : Int) + 12 ≤ examplePage.header.free :=
  have h := (compactPage_accesses_in_bounds exampleParams exampleParams_WF examplePage
    examplePage_layout 0 examplePage_target_zero).2.2
      { slot := 0, src := 16, dst := 20, len := 12 } (by decide)
  ⟨examplePage_layout, examplePage_target_zero, h.2.2.2.2.1, h.2.2.2.2.2.2⟩

end CompactClaims

/-! ## Facts about `eduom_CreateObject` -/

section CreateFacts

open eduom_CreateObject

theorem findSlot_spec (C : Params) (P : SlottedPage) (fuel i0 : Nat) :
    i0 ≤ findSlot C P fuel i0 ∧ findSlot C P fuel i0 ≤ i0 + fuel ∧
    (findSlot C P fuel i0 < i0 + fuel →
      (P.slot ((findSlot C P fuel i0 : Nat) : Int)).offset = C.EMPTYSLOT) ∧
    (∀ j : Nat, i0 ≤ j → j < findSlot C P fuel i0 → (P.slot (j : Int)).offset ≠ C.EMPTYSLOT) := by
  induction fuel generalizing i0 with
  | zero =>
    simp only [findSlot]
    refine ⟨le_refl _, by omega, by omega, by intro j h1 h2; omega⟩
  | succ fuel ih =>
    simp only [findSlot]
    split_ifs with h
    · refine ⟨le_refl _, by omega, fun _ => h, by intro j h1 h2; omega⟩
    · obtain ⟨h1, h2, h3, h4⟩ := ih (i0 + 1)
      refine ⟨by omega, by omega, fun hlt => h3 (by omega), ?_⟩
      intro j hj1 hj2
      rcases Nat.eq_or_lt_of_le hj1 with he | hl
      · rw [← he]; exact h
      · exact h4 j hl hj2

/-- Outcome of an insertion that returns `eNOERROR`: the identifier written and the buffer
frames afterwards. -/
theorem insertObject_ok (C : Params) (K : Collab) (cat : ObjectID) (hdr : ObjectHdr)
    (length : Int) (d : Bytes) (oid : ObjectID) (sel : Selected)
    (hok : (insertObject C K cat hdr length d oid sel).e = eNOERROR) :
    (insertObject C K cat hdr length d oid sel).oid =
      { pageNo := sel.pid.pageNo, volNo := sel.pid.volNo,
        slotNo := (placeObject C (sel.w.buffer sel.apage) hdr length d).2,
        unique := K.unique sel.w.calls sel.pid } ∧
    (insertObject C K cat hdr length d oid sel).w.buffer =
      Function.update sel.w.buffer sel.apage
        { (placeObject C (sel.w.buffer sel.apage) hdr length d).1 with
          slot := Function.update (placeObject C (sel.w.buffer sel.apage) hdr length d).1.slot
            (placeObject C (sel.w.buffer sel.apage) hdr length d).2
            { (placeObject C (sel.w.buffer sel.apage) hdr length d).1.slot
                (placeObject C (sel.w.buffer sel.apage) hdr length d).2 with
              unique := K.unique sel.w.calls sel.pid }
          header :=
            { (placeObject C (sel.w.buffer sel.apage) hdr length d).1.header with
              nSlots := max (placeObject C (sel.w.buffer sel.apage) hdr length d).1.header.nSlots
                ((placeObject C (sel.w.buffer sel.apage) hdr length d).2 + 1) } } := by
  unfold insertObject at hok ⊢
  simp only [World.call, eNOERROR] at hok ⊢
  split_ifs at hok ⊢ with h1 h2 h3 h4 h5
  all_goals first
    | (exfalso; simp only [] at hok; omega)
    | simp [Function.update_same]

/-- Header and slots of the page written by an insertion that returns `eNOERROR`. -/
theorem insertObject_page (C : Params) (K : Collab) (cat : ObjectID) (hdr : ObjectHdr)
    (length : Int) (d : Bytes) (oid : ObjectID) (sel : Selected)
    (hok : (insertObject C K cat hdr length d oid sel).e = eNOERROR) :
    ((insertObject C K cat hdr length d oid sel).w.buffer sel.apage).header.nSlots =
      max (sel.w.buffer sel.apage).header.nSlots
        (((findSlot C (sel.w.buffer sel.apage)
          (sel.w.buffer sel.apage).header.nSlots.toNat 0 : Nat) : Int) + 1) ∧
    ((insertObject C K cat hdr length d oid sel).w.buffer sel.apage).header.free =
      (sel.w.buffer sel.apage).header.free + (sizeofObjectHdr + ALIGNED_LENGTH C length) ∧
    (((insertObject C K cat hdr length d oid sel).w.buffer sel.apage).slot
        ((findSlot C (sel.w.buffer sel.apage)
          (sel.w.buffer sel.apage).header.nSlots.toNat 0 : Nat) : Int)).offset =
      (sel.w.buffer sel.apage).header.free ∧
    (∀ j : Int, j ≠ ((findSlot C (sel.w.buffer sel.apage)
          (sel.w.buffer sel.apage).header.nSlots.toNat 0 : Nat) : Int) →
      ((insertObject C K cat hdr length d oid sel).w.buffer sel.apage).slot j =
        (sel.w.buffer sel.apage).slot j) := by
  rw [(insertObject_ok C K cat hdr length d oid sel hok).2]
  simp only [Function.update_same, placeObject]
  refine ⟨trivial, trivial, ?_, ?_⟩
  · simp
  · intro j hj
    simp [Function.update_noteq hj]

theorem compact_not_ret (C : Params) (w : World) (apage : PageID) (nearObj : Option ObjectID)
    (e : Int) (w1 : World) : compact C w apage nearObj ≠ Flow.ret e w1 := by
  unfold compact
  cases nearObj with
  | none => simp
  | some near => simp [EduOM_CompactPage, eNOERROR]

theorem selectNear_ret_neg (C : Params) (K : Collab) (cat near : ObjectID) (needed : Int)
    (catEntry : sm_CatOverlayForData) (firstExt : Int) (w : World) (e : Int) (w1 : World)
    (h : selectNear C K cat near needed catEntry firstExt w = Flow.ret e w1) : e < 0 := by
  unfold selectNear at h
  simp only [] at h
  split_ifs at h with h1 h2 h3 h4 h5 h6 h7 h8
  all_goals first
    | (simp only [Flow.ret.injEq] at h; omega)
    | skip
  split at h
  · simp at h
  · rename_i heq
    exact absurd heq (compact_not_ret C _ _ _ _ _)
  · simp at h

theorem selectFar_ret_neg (C : Params) (K : Collab) (cat : ObjectID) (needed : Int)
    (catEntry : sm_CatOverlayForData) (pFid : PageID) (firstExt : Int) (w : World) (e : Int)
    (w1 : World)
    (h : selectFar C K cat needed catEntry pFid firstExt w = Flow.ret e w1) : e < 0 := by
  unfold selectFar at h
  simp only [] at h
  split_ifs at h with h1 h2 h3 h4 h5 h6 h7 h8 h9 h10 h11
  all_goals first
    | (simp only [Flow.ret.injEq] at h; omega)
    | skip
  all_goals
    split at h
    · simp at h
    · rename_i heq
      exact absurd heq (compact_not_ret C _ _ _ _ _)
    · simp at h

theorem selectNear_fits (C : Params) (K : Collab) (cat near : ObjectID) (needed : Int)
    (catEntry : sm_CatOverlayForData) (firstExt : Int) (w : World) (s : Selected)
    (hfit : needed ≤ SP_CFREE C (w.buffer { pageNo := near.pageNo, volNo := near.volNo }))
    (hfree : needed ≤ SP_FREE C (w.buffer { pageNo := near.pageNo, volNo := near.volNo }))
    (h : selectNear C K cat near needed catEntry firstExt w = Flow.next s) :
    s.apage = { pageNo := near.pageNo, volNo := near.volNo } ∧
    s.pid = { pageNo := near.pageNo, volNo := near.volNo } ∧ s.w.buffer = w.buffer := by
  unfold selectNear at h
  simp only [World.call] at h
  rw [if_pos hfree, if_neg (not_lt.mpr hfit)] at h
  split_ifs at h with h1 h2
  simp only [Flow.next.injEq] at h
  rw [← h]
  exact ⟨rfl, rfl, rfl⟩

theorem selectFar_lastPage_fits (C : Params) (K : Collab) (cat : ObjectID) (needed : Int)
    (catEntry : sm_CatOverlayForData) (pFid : PageID) (firstExt : Int) (w : World)
    (s : Selected) (havail : availPage C catEntry needed = C.NIL)
    (hfit : needed ≤ SP_CFREE C (w.buffer { pageNo := catEntry.lastPage, volNo := pFid.volNo }))
    (hfree : needed ≤ SP_FREE C (w.buffer { pageNo := catEntry.lastPage, volNo := pFid.volNo }))
    (h : selectFar C K cat needed catEntry pFid firstExt w = Flow.next s) :
    s.apage = { pageNo := catEntry.lastPage, volNo := pFid.volNo } ∧
    s.pid = { pageNo := catEntry.lastPage, volNo := pFid.volNo } ∧ s.w.buffer = w.buffer := by
  unfold selectFar at h
  simp only [World.call] at h
  rw [if_neg (not_not.mpr havail), if_pos hfree, if_neg (not_lt.mpr hfit)] at h
  split_ifs at h with h1 h2
  simp only [Flow.next.injEq] at h
  rw [← h]
  exact ⟨rfl, rfl, rfl⟩

/-- A call of `eduom_CreateObject` that returns `eNOERROR` went through the selection part
to its end and then through the insertion part. -/
theorem eduom_CreateObject_ok (C : Params) (hC : C.WF) (K : Collab) (cat : ObjectID)
    (nearObj : Option ObjectID) (hdr : ObjectHdr) (length : Int) (data : Option Bytes)
    (oid : ObjectID) (w : World) (r : Outcome)
    (hres : eduom_CreateObject C K (some cat) nearObj (some hdr) length data oid w = some r)
    (hok : r.e = eNOERROR) :
    ∃ (firstExt : Int) (s : Selected) (d : Bytes),
      (match nearObj with
        | some near =>
          selectNear C K cat near (neededSpace C length) (w.catEntry cat) firstExt
            (selectionWorld K cat w)
        | none =>
          selectFar C K cat (neededSpace C length) (w.catEntry cat)
            { pageNo := (w.catEntry cat).firstPage, volNo := (w.catEntry cat).fid.volNo }
            firstExt (selectionWorld K cat w)) = Flow.next s ∧
      r = insertObject C K cat hdr length d oid s := by
  have hT := hC.eNOTSUPPORTED_neg
  unfold eduom_CreateObject at hres
  simp only [] at hres
  by_cases h1 : ALIGNED_LENGTH C length > C.LRGOBJ_THRESHOLD
  · rw [if_pos h1] at hres
    simp only [Option.some.injEq] at hres
    rw [← hres] at hok
    simp only [eNOERROR] at hok
    omega
  · rw [if_neg h1] at hres
    cases nearObj with
    | some near =>
      simp only [] at hres ⊢
      split_ifs at hres with h2 h3
      · simp only [Option.some.injEq] at hres
        rw [← hres] at hok
        simp only [eNOERROR] at hok
        omega
      all_goals
        split at hres
        · simp at hres
        · rename_i e w3 hsel
          simp only [Option.some.injEq] at hres
          rw [← hres] at hok
          simp only [eNOERROR] at hok
          have := selectNear_ret_neg _ _ _ _ _ _ _ _ _ _ hsel
          omega
        · rename_i s hsel
          cases data with
          | some d =>
            simp only [Option.some.injEq] at hres
            exact ⟨_, s, d, hsel, hres.symm⟩
          | none =>
            simp only [] at hres
            first
              | (simp only [Option.some.injEq] at hres
                 exact ⟨_, s, _, hsel, hres.symm⟩)
              | simp at hres
    | none =>
      simp only [] at hres ⊢
      split_ifs at hres with h2 h3
      · simp only [Option.some.injEq] at hres
        rw [← hres] at hok
        simp only [eNOERROR] at hok
        omega
      all_goals
        split at hres
        · simp at hres
        · rename_i e w3 hsel
          simp only [Option.some.injEq] at hres
          rw [← hres] at hok
          simp only [eNOERROR] at hok
          have := selectFar_ret_neg _ _ _ _ _ _ _ _ _ _ hsel
          omega
        · rename_i s hsel
          cases data with
          | some d =>
            simp only [Option.some.injEq] at hres
            exact ⟨_, s, d, hsel, hres.symm⟩
          | none =>
            simp only [] at hres
            first
              | (simp only [Option.some.injEq] at hres
                 exact ⟨_, s, _, hsel, hres.symm⟩)
              | simp at hres

theorem selectionWorld_buffer (K : Collab) (cat : ObjectID) (w : World) :
    (selectionWorld K cat w).buffer = w.buffer := rfl

theorem selectionWorld_calls (K : Collab) (cat : ObjectID) (w : World) :
    (selectionWorld K cat w).calls =
      w.calls ++ [Call.BfM_GetTrain { pageNo := cat.pageNo, volNo := cat.volNo },
        Call.RDsM_PageIdToExtNo
          { pageNo := (w.catEntry cat).firstPage, volNo := (w.catEntry cat).fid.volNo }] := by
  simp [selectionWorld, World.call]

/-- Calls of an insertion that returns `eNOERROR`. -/
theorem insertObject_calls (C : Params) (K : Collab) (cat : ObjectID) (hdr : ObjectHdr)
    (length : Int) (d : Bytes) (oid : ObjectID) (sel : Selected)
    (hok : (insertObject C K cat hdr length d oid sel).e = eNOERROR) :
    (insertObject C K cat hdr length d oid sel).w.calls =
      sel.w.calls ++ [Call.om_GetUnique sel.pid, Call.BfM_SetDirty sel.pid,
        Call.BfM_FreeTrain sel.pid, Call.om_PutInAvailSpaceList cat sel.pid sel.apage,
        Call.BfM_FreeTrain { pageNo := cat.pageNo, volNo := cat.volNo }] := by
  unfold insertObject at hok ⊢
  simp only [World.call, eNOERROR] at hok ⊢
  split_ifs at hok ⊢ with h1 h2 h3 h4 h5
  all_goals first
    | (exfalso; simp only [] at hok; omega)
    | simp

/-- Selection near a hinted page that is fragmented: the page is compacted. -/
theorem selectNear_compacts (C : Params) (K : Collab) (cat near : ObjectID) (needed : Int)
    (catEntry : sm_CatOverlayForData) (firstExt : Int) (w : World) (s : Selected)
    (hfree : needed ≤ SP_FREE C (w.buffer { pageNo := near.pageNo, volNo := near.volNo }))
    (hfrag : SP_CFREE C (w.buffer { pageNo := near.pageNo, volNo := near.volNo }) < needed)
    (h : selectNear C K cat near needed catEntry firstExt w = Flow.next s) :
    s.apage = { pageNo := near.pageNo, volNo := near.volNo } ∧
    s.pid = { pageNo := near.pageNo, volNo := near.volNo } ∧
    s.w.buffer = Function.update w.buffer { pageNo := near.pageNo, volNo := near.volNo }
      (EduOM_CompactPage C (w.buffer { pageNo := near.pageNo, volNo := near.volNo })
        near.slotNo).2 ∧
    s.w.calls = w.calls ++
      [Call.BfM_GetTrain { pageNo := near.pageNo, volNo := near.volNo },
       Call.om_RemoveFromAvailSpaceList cat { pageNo := near.pageNo, volNo := near.volNo }
         { pageNo := near.pageNo, volNo := near.volNo },
       Call.EduOM_CompactPage { pageNo := near.pageNo, volNo := near.volNo } near.slotNo] := by
  unfold selectNear at h
  simp only [World.call] at h
  rw [if_pos hfree, if_pos hfrag] at h
  split_ifs at h with h1 h2
  simp only [compact, EduOM_CompactPage, eNOERROR, lt_self_iff_false, if_false,
    Flow.next.injEq] at h
  rw [← h]
  refine ⟨rfl, rfl, rfl, ?_⟩
  simp

/-- Selection near a hinted page without room: a new page is allocated. -/
theorem selectNear_allocates (C : Params) (K : Collab) (cat near : ObjectID) (needed : Int)
    (catEntry : sm_CatOverlayForData) (firstExt : Int) (w : World) (s : Selected)
    (hfull : SP_FREE C (w.buffer { pageNo := near.pageNo, volNo := near.volNo }) < needed)
    (h : selectNear C K cat near needed catEntry firstExt w = Flow.next s) :
    s.pid = K.allocPid (w.calls ++
      [Call.BfM_GetTrain { pageNo := near.pageNo, volNo := near.volNo },
       Call.BfM_FreeTrain { pageNo := near.pageNo, volNo := near.volNo }]) ∧
    s.apage = s.pid ∧
    s.w.buffer = Function.update w.buffer s.pid
      { zeroPage with header := { zeroPage.header with flags := 2, fid := catEntry.fid } } ∧
    s.w.calls = w.calls ++
      [Call.BfM_GetTrain { pageNo := near.pageNo, volNo := near.volNo },
       Call.BfM_FreeTrain { pageNo := near.pageNo, volNo := near.volNo },
       Call.RDsM_AllocTrains catEntry.fid.volNo firstExt
         { pageNo := near.pageNo, volNo := near.volNo } catEntry.eff,
       Call.BfM_GetNewTrain s.pid,
       Call.om_FileMapAddPage cat { pageNo := near.pageNo, volNo := near.volNo } s.pid] := by
  unfold selectNear at h
  simp only [World.call, BfM_GetNewTrain] at h
  rw [if_neg (not_le.mpr hfull)] at h
  split_ifs at h with h1 h2 h3 h4 h5
  simp only [Flow.next.injEq] at h
  rw [← h]
  simp [initHeader, zeroPage, Function.update_same]


/-- A call of `eduom_CreateObject` that returns `eNOERROR`, with the extent number and the
payload spelled out. -/
theorem eduom_CreateObject_ok_explicit (C : Params) (hC : C.WF) (K : Collab) (cat : ObjectID)
    (nearObj : Option ObjectID) (hdr : ObjectHdr) (length : Int) (data : Option Bytes)
    (oid : ObjectID) (w : World) (r : Outcome)
    (hres : eduom_CreateObject C K (some cat) nearObj (some hdr) length data oid w = some r)
    (hok : r.e = eNOERROR) :
    ∃ s : Selected,
      (match nearObj with
        | some near =>
          selectNear C K cat near (neededSpace C length) (w.catEntry cat)
            (K.extNo (w.calls ++ [Call.BfM_GetTrain { pageNo := cat.pageNo, volNo := cat.volNo }])
              { pageNo := (w.catEntry cat).firstPage, volNo := (w.catEntry cat).fid.volNo })
            (selectionWorld K cat w)
        | none =>
          selectFar C K cat (neededSpace C length) (w.catEntry cat)
            { pageNo := (w.catEntry cat).firstPage, volNo := (w.catEntry cat).fid.volNo }
            (K.extNo (w.calls ++ [Call.BfM_GetTrain { pageNo := cat.pageNo, volNo := cat.volNo }])
              { pageNo := (w.catEntry cat).firstPage, volNo := (w.catEntry cat).fid.volNo })
            (selectionWorld K cat w)) = Flow.next s ∧
      r = insertObject C K cat hdr length (data.getD (fun _ => 0)) oid s := by
  have hT := hC.eNOTSUPPORTED_neg
  unfold eduom_CreateObject at hres
  simp only [] at hres
  by_cases h1 : ALIGNED_LENGTH C length > C.LRGOBJ_THRESHOLD
  · rw [if_pos h1] at hres
    simp only [Option.some.injEq] at hres
    rw [← hres] at hok
    simp only [eNOERROR] at hok
    omega
  · rw [if_neg h1] at hres
    cases nearObj with
    | some near =>
      simp only [] at hres ⊢
      split_ifs at hres with h2 h3
      · simp only [Option.some.injEq] at hres
        rw [← hres] at hok
        simp only [eNOERROR] at hok
        omega
      all_goals
        split at hres
        · simp at hres
        · rename_i e w3 hsel
          simp only [Option.some.injEq] at hres
          rw [← hres] at hok
          simp only [eNOERROR] at hok
          have := selectNear_ret_neg _ _ _ _ _ _ _ _ _ _ hsel
          omega
        · rename_i s hsel
          cases data with
          | some d =>
            simp only [Option.some.injEq] at hres
            exact ⟨s, hsel, hres.symm⟩
          | none =>
            simp only [] at hres
            first
              | (simp only [Option.some.injEq] at hres
                 exact ⟨s, hsel, hres.symm⟩)
              | simp at hres
    | none =>
      simp only [] at hres ⊢
      split_ifs at hres with h2 h3
      · simp only [Option.some.injEq] at hres
        rw [← hres] at hok
        simp only [eNOERROR] at hok
        omega
      all_goals
        split at hres
        · simp at hres
        · rename_i e w3 hsel
          simp only [Option.some.injEq] at hres
          rw [← hres] at hok
          simp only [eNOERROR] at hok
          have := selectFar_ret_neg _ _ _ _ _ _ _ _ _ _ hsel
          omega
        · rename_i s hsel
          cases data with
          | some d =>
            simp only [Option.some.injEq] at hres
            exact ⟨s, hsel, hres.symm⟩
          | none =>
            simp only [] at hres
            first
              | (simp only [Option.some.injEq] at hres
                 exact ⟨s, hsel, hres.symm⟩)
              | simp at hres

/-- Payload bytes stored by an insertion that returns `eNOERROR`. -/
theorem insertObject_payload (C : Params) (K : Collab) (cat : ObjectID) (hdr : ObjectHdr)
    (length : Int) (d : Bytes) (oid : ObjectID) (sel : Selected)
    (hok : (insertObject C K cat hdr length d oid sel).e = eNOERROR) (k : Int) (h0 : 0 ≤ k)
    (h1 : k < length) :
    ((insertObject C K cat hdr length d oid sel).w.buffer sel.apage).data
        ((sel.w.buffer sel.apage).header.free + sizeofObjectHdr + k) = d k := by
  rw [(insertObject_ok C K cat hdr length d oid sel hok).2]
  simp only [Function.update_same, placeObject, memcpy]
  rw [if_pos ⟨by omega, by omega⟩]
  congr 1
  omega

theorem writeLE_outside (d : Bytes) (off : Int) (v : Nat) (w : Nat) (k : Int)
    (h : k < off ∨ off + (w : Int) ≤ k) : writeLE d off v w k = d k := by
  induction w generalizing d off v with
  | zero => rfl
  | succ w ih =>
    simp only [writeLE]
    rw [ih (Function.update d off (v % 256)) (off + 1) (v / 256) (by push_cast at h; omega)]
    exact Function.update_noteq (by push_cast at h; omega) _ _

theorem readLE_writeLE (d : Bytes) (off : Int) (v : Nat) (w : Nat) :
    readLE (writeLE d off v w) off w = v % 256 ^ w := by
  induction w generalizing d off v with
  | zero => simp [readLE, Nat.mod_one]
  | succ w ih =>
    simp only [readLE, writeLE]
    rw [ih, writeLE_outside _ _ _ _ _ (Or.inl (by omega)), Function.update_same,
      Nat.mod_mod, pow_succ', Nat.mod_mul]

theorem toSigned_toUnsigned_two (x : Int) (h0 : -32768 ≤ x) (h1 : x < 32768) :
    toSigned 2 (toUnsigned 2 x % 256 ^ 2) = x := by
  unfold toSigned toUnsigned
  norm_num
  split_ifs <;> omega

theorem toSigned_toUnsigned_four (x : Int) (h0 : -2147483648 ≤ x) (h1 : x < 2147483648) :
    toSigned 4 (toUnsigned 4 x % 256 ^ 4) = x := by
  unfold toSigned toUnsigned
  norm_num
  split_ifs <;> omega

theorem readLE_writeLE_other (d : Bytes) (off off1 : Int) (v : Nat) (w w1 : Nat)
    (h : off1 + (w1 : Int) ≤ off ∨ off + (w : Int) ≤ off1) :
    readLE (writeLE d off v w) off1 w1 = readLE d off1 w1 := by
  apply readLE_congr
  intro k hk0 hk1
  exact writeLE_outside d off v w _ (by omega)

/-- Reading back the length written by `Object.setHeader`. -/
theorem Object.length_setHeader (d : Bytes) (off : Int) (h : ObjectHdr)
    (h0 : -2147483648 ≤ h.length) (h1 : h.length < 2147483648) :
    Object.length (Object.setHeader d off h) off = h.length := by
  unfold Object.length Object.setHeader
  rw [readLE_writeLE]
  exact toSigned_toUnsigned_four h.length h0 h1

/-- Reading back the tag written by `Object.setHeader`. -/
theorem Object.tag_setHeader (d : Bytes) (off : Int) (h : ObjectHdr)
    (h0 : -32768 ≤ h.tag) (h1 : h.tag < 32768) :
    Object.tag (Object.setHeader d off h) off = h.tag := by
  unfold Object.tag Object.setHeader
  rw [readLE_writeLE_other _ _ _ _ _ _ (Or.inl (by push_cast; omega)), readLE_writeLE]
  exact toSigned_toUnsigned_two h.tag h0 h1

/-- Reading back the properties written by `Object.setHeader`. -/
theorem Object.properties_setHeader (d : Bytes) (off : Int) (h : ObjectHdr)
    (h0 : -32768 ≤ h.properties) (h1 : h.properties < 32768) :
    Object.properties (Object.setHeader d off h) off = h.properties := by
  unfold Object.properties Object.setHeader
  rw [readLE_writeLE_other _ _ _ _ _ _ (Or.inl (by push_cast; omega)),
    readLE_writeLE_other _ _ _ _ _ _ (Or.inl (by push_cast; omega)), readLE_writeLE]
  exact toSigned_toUnsigned_two h.properties h0 h1

/-- `Object.setHeader` changes only the eight bytes of the header. -/
theorem Object.setHeader_outside (d : Bytes) (off : Int) (h : ObjectHdr) (k : Int)
    (hk : k < off ∨ off + sizeofObjectHdr ≤ k) : Object.setHeader d off h k = d k := by
  unfold sizeofObjectHdr at hk
  unfold Object.setHeader
  rw [writeLE_outside _ _ _ _ _ (by push_cast; omega),
    writeLE_outside _ _ _ _ _ (by push_cast; omega),
    writeLE_outside _ _ _ _ _ (by push_cast; omega)]

theorem memcpy_outside (dst : Bytes) (dOff : Int) (src : Bytes) (sOff n : Int) (k : Int)
    (hk : k < dOff ∨ dOff + n ≤ k) : memcpy dst dOff src sOff n k = dst k := by
  unfold memcpy
  rw [if_neg (by omega)]


theorem Object.tag_congr (d1 d2 : Bytes) (o1 o2 : Int)
    (h : ∀ k : Int, 0 ≤ k → k < sizeofObjectHdr → d1 (o1 + k) = d2 (o2 + k)) :
    Object.tag d1 o1 = Object.tag d2 o2 := by
  unfold Object.tag
  rw [readLE_congr d1 d2 2 (o1 + 2) (o2 + 2) (fun k hk0 hk1 => by
    have := h (2 + k) (by omega) (by unfold sizeofObjectHdr; push_cast at hk1; omega)
    simpa [add_assoc] using this)]

theorem Object.properties_congr (d1 d2 : Bytes) (o1 o2 : Int)
    (h : ∀ k : Int, 0 ≤ k → k < sizeofObjectHdr → d1 (o1 + k) = d2 (o2 + k)) :
    Object.properties d1 o1 = Object.properties d2 o2 := by
  unfold Object.properties
  rw [readLE_congr d1 d2 2 o1 o2 (fun k hk0 hk1 => by
    exact h k hk0 (by unfold sizeofObjectHdr; push_cast at hk1; omega))]

/-- Data area of the page written by an insertion that returns `eNOERROR`. -/
theorem insertObject_data (C : Params) (K : Collab) (cat : ObjectID) (hdr : ObjectHdr)
    (length : Int) (d : Bytes) (oid : ObjectID) (sel : Selected)
    (hok : (insertObject C K cat hdr length d oid sel).e = eNOERROR) :
    ((insertObject C K cat hdr length d oid sel).w.buffer sel.apage).data =
      memcpy (Object.setHeader (sel.w.buffer sel.apage).data (sel.w.buffer sel.apage).header.free
          { properties := hdr.properties, tag := hdr.tag, length := length })
        ((sel.w.buffer sel.apage).header.free + sizeofObjectHdr) d 0 length := by
  rw [(insertObject_ok C K cat hdr length d oid sel hok).2]
  simp only [Function.update_same, placeObject]

/-- An insertion leaves the bytes below the old `free` as they were. -/
theorem insertObject_data_below (C : Params) (K : Collab) (cat : ObjectID) (hdr : ObjectHdr)
    (length : Int) (d : Bytes) (oid : ObjectID) (sel : Selected)
    (hok : (insertObject C K cat hdr length d oid sel).e = eNOERROR) (k : Int)
    (hk : k < (sel.w.buffer sel.apage).header.free) :
    ((insertObject C K cat hdr length d oid sel).w.buffer sel.apage).data k =
      (sel.w.buffer sel.apage).data k := by
  rw [insertObject_data C K cat hdr length d oid sel hok,
    memcpy_outside _ _ _ _ _ _ (Or.inl (by unfold sizeofObjectHdr; omega)),
    Object.setHeader_outside _ _ _ _ (Or.inl hk)]

/-- Header of the record stored by an insertion that returns `eNOERROR`. -/
theorem insertObject_header (C : Params) (K : Collab) (cat : ObjectID) (hdr : ObjectHdr)
    (length : Int) (d : Bytes) (oid : ObjectID) (sel : Selected)
    (hok : (insertObject C K cat hdr length d oid sel).e = eNOERROR) :
    (-2147483648 ≤ length → length < 2147483648 →
      Object.length ((insertObject C K cat hdr length d oid sel).w.buffer sel.apage).data
        (sel.w.buffer sel.apage).header.free = length) ∧
    (-32768 ≤ hdr.tag → hdr.tag < 32768 →
      Object.tag ((insertObject C K cat hdr length d oid sel).w.buffer sel.apage).data
        (sel.w.buffer sel.apage).header.free = hdr.tag) ∧
    (-32768 ≤ hdr.properties → hdr.properties < 32768 →
      Object.properties ((insertObject C K cat hdr length d oid sel).w.buffer sel.apage).data
        (sel.w.buffer sel.apage).header.free = hdr.properties) := by
  rw [insertObject_data C K cat hdr length d oid sel hok]
  have hmem : ∀ k : Int, 0 ≤ k → k < sizeofObjectHdr →
      memcpy (Object.setHeader (sel.w.buffer sel.apage).data (sel.w.buffer sel.apage).header.free
          { properties := hdr.properties, tag := hdr.tag, length := length })
        ((sel.w.buffer sel.apage).header.free + sizeofObjectHdr) d 0 length
        ((sel.w.buffer sel.apage).header.free + k) =
      Object.setHeader (sel.w.buffer sel.apage).data (sel.w.buffer sel.apage).header.free
          { properties := hdr.properties, tag := hdr.tag, length := length }
        ((sel.w.buffer sel.apage).header.free + k) := by
    intro k hk0 hk1
    exact memcpy_outside _ _ _ _ _ _ (Or.inl (by omega))
  refine ⟨fun h0 h1 => ?_, fun h0 h1 => ?_, fun h0 h1 => ?_⟩
  · rw [Object.length_congr _ _ _ _ hmem]
    exact Object.length_setHeader _ _ _ h0 h1
  · rw [Object.tag_congr _ _ _ _ hmem]
    exact Object.tag_setHeader _ _ _ h0 h1
  · rw [Object.properties_congr _ _ _ _ hmem]
    exact Object.properties_setHeader _ _ _ h0 h1

end CreateFacts

/-! ## Creation: the claims -/

section CreateClaims

open eduom_CreateObject

/-- C6 does not hold on the code.  The claim: when a collaborator fails with a code
`e < 0` during placement, `EduOM_CreateObject` returns `e`.  Here the pin of the hinted
page fails with -1: `eduom_CreateObject` returns -1, and `EduOM_CreateObject`, which makes
that very call, returns `eNOERROR`. -/
theorem EduOM_CreateObject_discards_error :
    (eduom_CreateObject exampleParams failingPinCollab (some exampleCat) (some exampleNear)
        (some { properties := 0, tag := 0, length := 0 }) 4 (some examplePayload) exampleOid
        exampleWorld).map (fun r => r.e) = some (-1) ∧
    (EduOM_CreateObject exampleParams failingPinCollab (some exampleCat) (some exampleNear)
        none 4 (some examplePayload) exampleOid exampleWorld).map (fun r => r.e) =
      some eNOERROR := by
  constructor <;> decide

/-- C7: `EduOM_CreateObject` returns an error exactly when validation fails, the checks
being made in the stated order (catalog reference absent, `length < 0`, payload absent
with `length > 0`, `ALIGNED_LENGTH(length) > LRGOBJ_THRESHOLD`).  When validation fails
with the error `e`, the call returns `e`, which is negative, and leaves the world as it
was - no collaborator call is recorded, no buffer frame changes - and the output
identifier unwritten.  When validation passes, a call that returns returns `eNOERROR`. -/
theorem EduOM_CreateObject_validation (C : Params) (hC : C.WF) (K : Collab)
    (catObjForFile nearObj : Option ObjectID) (objHdr : Option ObjectHdr) (length : Int)
    (data : Option Bytes) (oid : ObjectID) (w : World) :
    (∀ e : Int, validationError C catObjForFile length data = some e →
      e < 0 ∧
      EduOM_CreateObject C K catObjForFile nearObj objHdr length data oid w =
        some { e := e, w := w, oid := oid }) ∧
    (validationError C catObjForFile length data = none →
      ∀ r : Outcome,
        EduOM_CreateObject C K catObjForFile nearObj objHdr length data oid w = some r →
        r.e = eNOERROR) := by
  unfold validationError EduOM_CreateObject
  constructor
  · intro e he
    split_ifs at he ⊢ with h1 h2 h3 h4 <;> try simp_all
    · rw [← he]; exact hC.eBADCATALOGOBJECT_neg
    · rw [← he]; exact hC.eBADLENGTH_neg
    · rw [← he]; exact hC.eBADUSERBUF_neg
    · rw [← he]; exact hC.eNOTSUPPORTED_neg
  · intro hnone r hr
    split_ifs at hnone hr with h1 h2 h3 h4
    simp only [] at hr
    split at hr
    · simp at hr
    · simp only [Option.some.injEq] at hr
      rw [← hr]

theorem EduOM_CreateObject_validation_witness :
    exampleParams.WF ∧
    EduOM_CreateObject exampleParams okCollab (some exampleCat) none none (-3)
        (some examplePayload) exampleOid exampleWorld =
      some { e := exampleParams.eBADLENGTH_OM, w := exampleWorld, oid := exampleOid } :=
  ⟨exampleParams_WF,
    ((EduOM_CreateObject_validation exampleParams exampleParams_WF okCollab (some exampleCat)
      none none (-3) (some examplePayload) exampleOid exampleWorld).1
        exampleParams.eBADLENGTH_OM (by decide)).2⟩

/-- C8 does not hold on the code.  The claim: after a successful create the slot named
by the returned identifier is live in the target page and holds the payload.  Here there
is no hint, all buckets are empty and the last page (page 12) lacks space: the create
succeeds and returns the identifier (page 13, slot 1, stamp 777), but no frame was pinned
for the new page 13, whose frame is untouched - slot count 0, no payload byte - while the
record was written over the start of the last page, at the offset of its slot 0. -/
theorem eduom_CreateObject_writes_last_page :
    (eduom_CreateObject exampleParams okCollab (some exampleCat) none
        (some { properties := 0, tag := 0, length := 0 }) 4 (some examplePayload) exampleOid
        exampleWorld).map (fun r => (r.e, r.oid)) =
      some (eNOERROR, { pageNo := 13, volNo := 1, slotNo := 1, unique := 777 }) ∧
    (eduom_CreateObject exampleParams okCollab (some exampleCat) none
        (some { properties := 0, tag := 0, length := 0 }) 4 (some examplePayload) exampleOid
        exampleWorld).map
      (fun r => ((r.w.buffer { pageNo := 13, volNo := 1 }).header.nSlots,
        (r.w.buffer { pageNo := 13, volNo := 1 }).data 8)) = some (0, 0) ∧
    (eduom_CreateObject exampleParams okCollab (some exampleCat) none
        (some { properties := 0, tag := 0, length := 0 }) 4 (some examplePayload) exampleOid
        exampleWorld).map
      (fun r => (((r.w.buffer { pageNo := 12, volNo := 1 }).slot 1).offset,
        ((r.w.buffer { pageNo := 12, volNo := 1 }).slot 0).offset,
        (r.w.buffer { pageNo := 12, volNo := 1 }).data 8)) = some (0, 0, 222) := by
  refine ⟨by decide, by decide, by decide⟩


/-- C9: in the insertion step of create the slot index chosen for the new record is the
smallest `i` below the slot count whose offset is `EMPTYSLOT`, and the slot count when
there is none; it is the slot index of the returned identifier and receives the old
`free` as offset; afterwards the slot count is `max(old slot count, i + 1)`, hence
unchanged when an empty slot is reused; no other slot entry is modified. -/
theorem insertObject_slot_choice (C : Params) (K : Collab) (cat : ObjectID) (hdr : ObjectHdr)
    (length : Int) (d : Bytes) (oid : ObjectID) (sel : Selected)
    (hok : (insertObject C K cat hdr length d oid sel).e = eNOERROR)
    (P Q : SlottedPage) (hP : P = sel.w.buffer sel.apage)
    (hQ : Q = (insertObject C K cat hdr length d oid sel).w.buffer sel.apage)
    (i : Nat) (hi : i = findSlot C P P.header.nSlots.toNat 0) :
    (insertObject C K cat hdr length d oid sel).oid.slotNo = (i : Int) ∧
    i ≤ P.header.nSlots.toNat ∧
    (i < P.header.nSlots.toNat → (P.slot (i : Int)).offset = C.EMPTYSLOT) ∧
    (∀ j : Nat, j < i → (P.slot (j : Int)).offset ≠ C.EMPTYSLOT) ∧
    (Q.slot (i : Int)).offset = P.header.free ∧
    Q.header.nSlots = max P.header.nSlots ((i : Int) + 1) ∧
    (i < P.header.nSlots.toNat → Q.header.nSlots = P.header.nSlots) ∧
    (∀ j : Int, j ≠ (i : Int) → Q.slot j = P.slot j) := by
  subst hP hQ hi
  obtain ⟨h1, h2, h3, h4⟩ := insertObject_page C K cat hdr length d oid sel hok
  obtain ⟨_, f2, f3, f4⟩ :=
    findSlot_spec C (sel.w.buffer sel.apage) (sel.w.buffer sel.apage).header.nSlots.toNat 0
  refine ⟨?_, by omega, fun h => f3 (by omega), fun j hj => f4 j (Nat.zero_le j) hj, h3, h1,
    ?_, h4⟩
  · rw [(insertObject_ok C K cat hdr length d oid sel hok).1]
    rfl
  · intro h
    rw [h1]
    omega

theorem insertObject_slot_choice_witness :
    (insertObject exampleParams okCollab exampleCat { properties := 0, tag := 0, length := 0 } 4
        examplePayload exampleOid
        { w := exampleWorld, apage := { pageNo := 11, volNo := 1 },
          pid := { pageNo := 11, volNo := 1 } }).e = eNOERROR ∧
    (insertObject exampleParams okCollab exampleCat { properties := 0, tag := 0, length := 0 } 4
        examplePayload exampleOid
        { w := exampleWorld, apage := { pageNo := 11, volNo := 1 },
          pid := { pageNo := 11, volNo := 1 } }).oid.slotNo = ((1 : Nat) : Int) :=
  ⟨by decide,
    (insertObject_slot_choice exampleParams okCollab exampleCat
      { properties := 0, tag := 0, length := 0 } 4 examplePayload exampleOid
      { w := exampleWorld, apage := { pageNo := 11, volNo := 1 },
        pid := { pageNo := 11, volNo := 1 } } (by decide) examplePage _ rfl rfl 1
      (by decide)).1⟩

/-- C10, as amended: for every successful create that performs no compaction and inserts
into the hinted page or, without a hint and with an empty bucket, into the last page of
the file (the page has contiguous-free and reclaimable-free at least `needed`), the
returned identifier names that page, and its contiguous-free space after the call is its
value before the call minus exactly `needed` when no entry below the slot count is
`EMPTYSLOT`, and minus `needed - sizeof(SlottedPageSlot)` when an `EMPTYSLOT` entry is
reused. -/
theorem eduom_CreateObject_cfree (C : Params) (hC : C.WF) (K : Collab) (cat : ObjectID)
    (nearObj : Option ObjectID) (hdr : ObjectHdr) (length : Int) (data : Option Bytes)
    (oid : ObjectID) (w : World) (r : Outcome) (pid : PageID)
    (hpid : (∃ near : ObjectID, nearObj = some near ∧
        pid = { pageNo := near.pageNo, volNo := near.volNo }) ∨
      (nearObj = none ∧ availPage C (w.catEntry cat) (neededSpace C length) = C.NIL ∧
        pid = { pageNo := (w.catEntry cat).lastPage, volNo := (w.catEntry cat).fid.volNo }))
    (hfit : neededSpace C length ≤ SP_CFREE C (w.buffer pid))
    (hfree : neededSpace C length ≤ SP_FREE C (w.buffer pid))
    (hn : 0 ≤ (w.buffer pid).header.nSlots)
    (hres : eduom_CreateObject C K (some cat) nearObj (some hdr) length data oid w = some r)
    (hok : r.e = eNOERROR) :
    r.oid.pageNo = pid.pageNo ∧ r.oid.volNo = pid.volNo ∧
    ((∀ j : Nat, j < (w.buffer pid).header.nSlots.toNat →
        ((w.buffer pid).slot (j : Int)).offset ≠ C.EMPTYSLOT) →
      SP_CFREE C (r.w.buffer pid) = SP_CFREE C (w.buffer pid) - neededSpace C length) ∧
    ((∃ j : Nat, j < (w.buffer pid).header.nSlots.toNat ∧
        ((w.buffer pid).slot (j : Int)).offset = C.EMPTYSLOT) →
      SP_CFREE C (r.w.buffer pid) =
        SP_CFREE C (w.buffer pid) - (neededSpace C length - C.sizeofSlottedPageSlot)) := by
  have hs : ∃ (s : Selected) (d : Bytes), r = insertObject C K cat hdr length d oid s ∧
      s.apage = pid ∧ s.pid = pid ∧ s.w.buffer = w.buffer := by
    rcases hpid with ⟨near, h1, h2⟩ | ⟨h1, h2, h3⟩
    · subst h1 h2
      obtain ⟨fe, s, d, hsel, hr⟩ := eduom_CreateObject_ok C hC K cat (some near) hdr length
        data oid w r hres hok
      exact ⟨s, d, hr, selectNear_fits C K cat near (neededSpace C length) (w.catEntry cat) fe
        (selectionWorld K cat w) s hfit hfree hsel⟩
    · subst h1 h3
      obtain ⟨fe, s, d, hsel, hr⟩ := eduom_CreateObject_ok C hC K cat none hdr length
        data oid w r hres hok
      exact ⟨s, d, hr, selectFar_lastPage_fits C K cat (neededSpace C length) (w.catEntry cat)
        { pageNo := (w.catEntry cat).firstPage, volNo := (w.catEntry cat).fid.volNo } fe
        (selectionWorld K cat w) s h2 hfit hfree hsel⟩
  obtain ⟨s, d, hr, hs⟩ := hs
  obtain ⟨hs1, hs2, hs3⟩ := hs
  subst hr
  obtain ⟨h1, h2, _, _⟩ := insertObject_page C K cat hdr length d oid s hok
  have hoid := (insertObject_ok C K cat hdr length d oid s hok).1
  rw [hs1, hs3] at h1 h2
  obtain ⟨_, f2, f3, f4⟩ := findSlot_spec C (w.buffer pid) (w.buffer pid).header.nSlots.toNat 0
  refine ⟨by rw [hoid, hs2], by rw [hoid, hs2], ?_, ?_⟩
  · intro hall
    have hi : findSlot C (w.buffer pid) (w.buffer pid).header.nSlots.toNat 0 =
        (w.buffer pid).header.nSlots.toNat := by
      by_contra hne
      have hlt : findSlot C (w.buffer pid) (w.buffer pid).header.nSlots.toNat 0 <
          0 + (w.buffer pid).header.nSlots.toNat := by omega
      exact hall _ (by omega) (f3 hlt)
    rw [hi] at h1
    have hmax : max (w.buffer pid).header.nSlots
        ((((w.buffer pid).header.nSlots.toNat : Nat) : Int) + 1) =
        (w.buffer pid).header.nSlots + 1 := by omega
    unfold SP_CFREE neededSpace
    rw [h1, h2, hmax, add_mul]
    ring
  · rintro ⟨j, hj, hje⟩
    have hlt : findSlot C (w.buffer pid) (w.buffer pid).header.nSlots.toNat 0 <
        (w.buffer pid).header.nSlots.toNat := by
      by_contra hge
      exact f4 j (Nat.zero_le j) (by omega) hje
    have hmax : max (w.buffer pid).header.nSlots
        (((findSlot C (w.buffer pid) (w.buffer pid).header.nSlots.toNat 0 : Nat) : Int) + 1) =
        (w.buffer pid).header.nSlots := by omega
    unfold SP_CFREE neededSpace
    rw [h1, h2, hmax]
    ring

theorem eduom_CreateObject_cfree_witness :
    eduom_CreateObject exampleParams okCollab (some exampleCat) (some exampleNear)
        (some { properties := 0, tag := 0, length := 0 }) 4 (some examplePayload) exampleOid
        exampleWorld = some exampleNearOutcome ∧
    SP_CFREE exampleParams (exampleNearOutcome.w.buffer { pageNo := 11, volNo := 1 }) =
      SP_CFREE exampleParams (exampleWorld.buffer { pageNo := 11, volNo := 1 }) -
        (neededSpace exampleParams 4 - exampleParams.sizeofSlottedPageSlot) :=
  ⟨rfl,
    (eduom_CreateObject_cfree exampleParams exampleParams_WF okCollab exampleCat
      (some exampleNear) { properties := 0, tag := 0, length := 0 } 4 (some examplePayload)
      exampleOid exampleWorld exampleNearOutcome { pageNo := 11, volNo := 1 }
      (Or.inl ⟨exampleNear, rfl, rfl⟩) (by decide) (by decide) (by decide) rfl
      (by decide)).2.2.2 ⟨1, by decide, by decide⟩⟩

/-- C10 as stated fails: a successful create of four payload bytes (`needed` = 20) near
an object of `examplePage`, whose slot 1 is retired, makes no compaction - the calls are
listed - reuses slot 1, and takes the contiguous-free space of the page from 3932 to
3920, that is 12 bytes less and not 20. -/
theorem eduom_CreateObject_cfree_reuse :
    neededSpace exampleParams 4 = 20 ∧
    SP_CFREE exampleParams (exampleWorld.buffer { pageNo := 11, volNo := 1 }) = 3932 ∧
    (eduom_CreateObject exampleParams okCollab (some exampleCat) (some exampleNear)
        (some { properties := 0, tag := 0, length := 0 }) 4 (some examplePayload) exampleOid
        exampleWorld).map
      (fun r => (r.e, r.oid, SP_CFREE exampleParams (r.w.buffer { pageNo := 11, volNo := 1 }))) =
      some (eNOERROR, { pageNo := 11, volNo := 1, slotNo := 1, unique := 777 }, 3920) ∧
    (eduom_CreateObject exampleParams okCollab (some exampleCat) (some exampleNear)
        (some { properties := 0, tag := 0, length := 0 }) 4 (some examplePayload) exampleOid
        exampleWorld).map (fun r => r.w.calls) =
      some [Call.BfM_GetTrain { pageNo := 1, volNo := 1 },
        Call.RDsM_PageIdToExtNo { pageNo := 10, volNo := 1 },
        Call.BfM_GetTrain { pageNo := 11, volNo := 1 },
        Call.om_RemoveFromAvailSpaceList exampleCat { pageNo := 11, volNo := 1 }
          { pageNo := 11, volNo := 1 },
        Call.om_GetUnique { pageNo := 11, volNo := 1 },
        Call.BfM_SetDirty { pageNo := 11, volNo := 1 },
        Call.BfM_FreeTrain { pageNo := 11, volNo := 1 },
        Call.om_PutInAvailSpaceList exampleCat { pageNo := 11, volNo := 1 }
          { pageNo := 11, volNo := 1 },
        Call.BfM_FreeTrain { pageNo := 1, volNo := 1 }] := by
  refine ⟨by decide, by decide, by decide, by decide⟩

/-- C12: for a successful create with a near-object hint whose page has reclaimable-free
below `needed`, the allocator delivering a page `pid` other than the hinted one: the calls
made are exactly the listed ones - the hinted page is unpinned, one page is allocated with
the hinted page as anchor, pinned as a new page and linked after the hinted page; the
frame of the hinted page is unchanged; the header of the new page is initialised (`free`,
`unused` and slot count 0) when the insertion starts; the returned identifier is slot 0 of
`pid`, that slot has offset 0, and afterwards `free` is
`sizeof(ObjectHdr) + ALIGNED_LENGTH(length)`, `unused` is 0 and the slot count is 1; the
record is there: the bytes at offset 0 of the new page hold the header (the length
argument, the tag and the properties of `hdr`, each within the range of its C type) and
the `length` bytes behind the header are the bytes of the payload. -/
theorem eduom_CreateObject_allocates_near (C : Params) (hC : C.WF) (K : Collab)
    (cat near : ObjectID) (hdr : ObjectHdr) (length : Int) (data : Option Bytes)
    (oid : ObjectID) (w : World) (r : Outcome) (nearPid pid : PageID)
    (hnear : nearPid = { pageNo := near.pageNo, volNo := near.volNo })
    (hpid : pid = K.allocPid (w.calls ++
      [Call.BfM_GetTrain { pageNo := cat.pageNo, volNo := cat.volNo },
       Call.RDsM_PageIdToExtNo
         { pageNo := (w.catEntry cat).firstPage, volNo := (w.catEntry cat).fid.volNo },
       Call.BfM_GetTrain nearPid, Call.BfM_FreeTrain nearPid]))
    (hnew : pid ≠ nearPid)
    (hfull : SP_FREE C (w.buffer nearPid) < neededSpace C length)
    (hres : eduom_CreateObject C K (some cat) (some near) (some hdr) length data oid w = some r)
    (hok : r.e = eNOERROR) :
    r.w.calls = w.calls ++
      [Call.BfM_GetTrain { pageNo := cat.pageNo, volNo := cat.volNo },
       Call.RDsM_PageIdToExtNo
         { pageNo := (w.catEntry cat).firstPage, volNo := (w.catEntry cat).fid.volNo },
       Call.BfM_GetTrain nearPid,
       Call.BfM_FreeTrain nearPid,
       Call.RDsM_AllocTrains (w.catEntry cat).fid.volNo
         (K.extNo (w.calls ++ [Call.BfM_GetTrain { pageNo := cat.pageNo, volNo := cat.volNo }])
           { pageNo := (w.catEntry cat).firstPage, volNo := (w.catEntry cat).fid.volNo })
         nearPid (w.catEntry cat).eff,
       Call.BfM_GetNewTrain pid,
       Call.om_FileMapAddPage cat nearPid pid,
       Call.om_GetUnique pid,
       Call.BfM_SetDirty pid,
       Call.BfM_FreeTrain pid,
       Call.om_PutInAvailSpaceList cat pid pid,
       Call.BfM_FreeTrain { pageNo := cat.pageNo, volNo := cat.volNo }] ∧
    r.w.buffer nearPid = w.buffer nearPid ∧
    (∃ s : Selected, r = insertObject C K cat hdr length (data.getD (fun _ => 0)) oid s ∧
      s.apage = pid ∧ s.pid = pid ∧
      (s.w.buffer pid).header.free = 0 ∧ (s.w.buffer pid).header.unused = 0 ∧
      (s.w.buffer pid).header.nSlots = 0) ∧
    r.oid.pageNo = pid.pageNo ∧ r.oid.volNo = pid.volNo ∧ r.oid.slotNo = 0 ∧
    ((r.w.buffer pid).slot 0).offset = 0 ∧
    (r.w.buffer pid).header.free = sizeofObjectHdr + ALIGNED_LENGTH C length ∧
    (r.w.buffer pid).header.unused = 0 ∧
    (r.w.buffer pid).header.nSlots = 1 ∧
    (-2147483648 ≤ length → length < 2147483648 →
      Object.length (r.w.buffer pid).data 0 = length) ∧
    (-32768 ≤ hdr.tag → hdr.tag < 32768 → Object.tag (r.w.buffer pid).data 0 = hdr.tag) ∧
    (-32768 ≤ hdr.properties → hdr.properties < 32768 →
      Object.properties (r.w.buffer pid).data 0 = hdr.properties) ∧
    (∀ d : Bytes, data = some d → ∀ k : Int, 0 ≤ k → k < length →
      (r.w.buffer pid).data (sizeofObjectHdr + k) = d k) := by
  subst hnear
  obtain ⟨s, hsel, hr⟩ := eduom_CreateObject_ok_explicit C hC K cat (some near) hdr length
    data oid w r hres hok
  simp only [] at hsel
  subst hr
  have hcalls := insertObject_calls C K cat hdr length _ oid s hok
  obtain ⟨hp, ha, hb, hc⟩ := selectNear_allocates C K cat near _ _ _ (selectionWorld K cat w) s
    hfull hsel
  rw [selectionWorld_calls] at hp hc
  simp only [List.append_assoc, List.cons_append, List.nil_append] at hp hc
  rw [← hpid] at hp
  rw [hp] at ha hb hc
  rw [selectionWorld_buffer] at hb
  have hio := insertObject_ok C K cat hdr length (data.getD (fun _ => 0)) oid s hok
  have hsp : s.w.buffer s.apage =
      { zeroPage with
        header := { zeroPage.header with flags := 2, fid := (w.catEntry cat).fid } } := by
    rw [ha, hb, Function.update_same]
  have hfs : findSlot C (s.w.buffer s.apage) (s.w.buffer s.apage).header.nSlots.toNat 0 = 0 := by
    rw [hsp]
    simp [zeroPage, findSlot]
  have hpage := insertObject_page C K cat hdr length (data.getD (fun _ => 0)) oid s hok
  rw [hfs] at hpage
  rw [ha] at hpage
  have hfree : (s.w.buffer s.apage).header.free = 0 := by rw [hsp]; rfl
  have hhdr := insertObject_header C K cat hdr length (data.getD (fun _ => 0)) oid s hok
  rw [hfree, ha] at hhdr
  refine ⟨?_, ?_, ⟨s, rfl, ha, hp, ?_, ?_, ?_⟩, by rw [hio.1, hp], by rw [hio.1, hp], ?_,
    ?_, ?_, ?_, ?_, hhdr.1, hhdr.2.1, hhdr.2.2, ?_⟩
  · rw [hcalls, hc, hp, ha]
    simp
  · rw [hio.2, ha, Function.update_noteq (Ne.symm hnew), hb, Function.update_noteq (Ne.symm hnew)]
  · rw [hb, Function.update_same]; rfl
  · rw [hb, Function.update_same]; rfl
  · rw [hb, Function.update_same]; rfl
  · rw [hio.1]
    simp only [placeObject, hfs]
    rfl
  · have := hpage.2.2.1
    rw [hb, Function.update_same] at this
    simpa [zeroPage] using this
  · have := hpage.2.1
    rw [hb, Function.update_same] at this
    simpa [zeroPage] using this
  · rw [hio.2, ha, Function.update_same]
    simp only [placeObject]
    rw [hb, Function.update_same]
    rfl
  · have := hpage.1
    rw [hb, Function.update_same] at this
    simpa [zeroPage] using this
  · intro d hd k hk0 hk1
    have hpay := insertObject_payload C K cat hdr length (data.getD (fun _ => 0)) oid s hok k
      hk0 hk1
    rw [hfree, ha] at hpay
    subst hd
    simpa using hpay

theorem eduom_CreateObject_allocates_near_witness :
    eduom_CreateObject exampleParams okCollab (some exampleCat) (some exampleLast)
        (some { properties := 0, tag := 0, length := 0 }) 4 (some examplePayload) exampleOid
        exampleWorld = some fullNearOutcome ∧
    fullNearOutcome.w.buffer { pageNo := 12, volNo := 1 } =
      exampleWorld.buffer { pageNo := 12, volNo := 1 } ∧
    fullNearOutcome.oid.slotNo = 0 ∧
    ((fullNearOutcome.w.buffer { pageNo := 13, volNo := 1 }).slot 0).offset = 0 ∧
    (fullNearOutcome.w.buffer { pageNo := 13, volNo := 1 }).header.free =
      sizeofObjectHdr + ALIGNED_LENGTH exampleParams 4 ∧
    Object.length (fullNearOutcome.w.buffer { pageNo := 13, volNo := 1 }).data 0 = 4 ∧
    (fullNearOutcome.w.buffer { pageNo := 13, volNo := 1 }).data (sizeofObjectHdr + 0) =
      examplePayload 0 :=
  have h := eduom_CreateObject_allocates_near exampleParams exampleParams_WF okCollab exampleCat
    exampleLast { properties := 0, tag := 0, length := 0 } 4 (some examplePayload) exampleOid
    exampleWorld fullNearOutcome { pageNo := 12, volNo := 1 } { pageNo := 13, volNo := 1 }
    rfl rfl (by decide) (by decide) rfl (by decide)
  ⟨rfl, h.2.1, h.2.2.2.2.2.1, h.2.2.2.2.2.2.1, h.2.2.2.2.2.2.2.1,
    h.2.2.2.2.2.2.2.2.2.2.1 (by decide) (by decide),
    h.2.2.2.2.2.2.2.2.2.2.2.2.2 examplePayload rfl 0 (by decide) (by decide)⟩

/-- C13 does not hold on the code.  The claim: with no hint, an empty bucket and a last
page without room, the last page is left unchanged, the new page is pinned and the record
goes to slot 0 of the new page.  Here `EduOM_CreateObject` is called in that situation
(last page 12, new page 13): among the calls made none pins page 13, the header of the
last page is rewritten (`free` from 3980 to 12, slot count from 1 to 2), and the returned
identifier is slot 1 of page 13, whose frame still has slot count 0. -/
theorem EduOM_CreateObject_new_page_not_pinned :
    (EduOM_CreateObject exampleParams okCollab (some exampleCat) none none 4
        (some examplePayload) exampleOid exampleWorld).map (fun r => r.w.calls) =
      some [Call.BfM_GetTrain { pageNo := 1, volNo := 1 },
        Call.RDsM_PageIdToExtNo { pageNo := 10, volNo := 1 },
        Call.BfM_GetTrain { pageNo := 12, volNo := 1 },
        Call.BfM_FreeTrain { pageNo := 12, volNo := 1 },
        Call.RDsM_AllocTrains 1 0 { pageNo := 12, volNo := 1 } 100,
        Call.om_FileMapAddPage exampleCat { pageNo := 12, volNo := 1 }
          { pageNo := 13, volNo := 1 },
        Call.om_GetUnique { pageNo := 13, volNo := 1 },
        Call.BfM_SetDirty { pageNo := 13, volNo := 1 },
        Call.BfM_FreeTrain { pageNo := 13, volNo := 1 },
        Call.om_PutInAvailSpaceList exampleCat { pageNo := 13, volNo := 1 }
          { pageNo := 12, volNo := 1 },
        Call.BfM_FreeTrain { pageNo := 1, volNo := 1 }] ∧
    ((exampleWorld.buffer { pageNo := 12, volNo := 1 }).header.free,
      (exampleWorld.buffer { pageNo := 12, volNo := 1 }).header.nSlots) = (3980, 1) ∧
    (EduOM_CreateObject exampleParams okCollab (some exampleCat) none none 4
        (some examplePayload) exampleOid exampleWorld).map
      (fun r => ((r.w.buffer { pageNo := 12, volNo := 1 }).header.free,
        (r.w.buffer { pageNo := 12, volNo := 1 }).header.nSlots)) = some (12, 2) ∧
    (EduOM_CreateObject exampleParams okCollab (some exampleCat) none none 4
        (some examplePayload) exampleOid exampleWorld).map
      (fun r => (r.e, r.oid.pageNo, r.oid.slotNo,
        (r.w.buffer { pageNo := 13, volNo := 1 }).header.nSlots)) =
      some (eNOERROR, 13, 1, 0) := by
  refine ⟨by decide, by decide, by decide, by decide⟩

/-- C14 does not hold on the code.  The claim: with no hint, a chosen page with
reclaimable-free at least `needed` but contiguous-free below `needed` is compacted with no
target slot and the insert completes.  Here the buckets are empty and the last page has
12 contiguous and 112 reclaimable free bytes for `needed` = 20: the call reaches the
compaction of line 291, whose argument `nearObj->slotNo` dereferences the `NULL` hint, and
does not return. -/
theorem eduom_CreateObject_null_hint_dereferenced :
    neededSpace exampleParams 4 = 20 ∧
    eduom_CreateObject.availPage exampleParams exampleCatEntry 20 = exampleParams.NIL ∧
    SP_CFREE exampleParams (fragmentedWorld.buffer { pageNo := 12, volNo := 1 }) = 12 ∧
    SP_FREE exampleParams (fragmentedWorld.buffer { pageNo := 12, volNo := 1 }) = 112 ∧
    (eduom_CreateObject exampleParams okCollab (some exampleCat) none
        (some { properties := 0, tag := 0, length := 0 }) 4 (some examplePayload) exampleOid
        fragmentedWorld).isNone = true ∧
    (EduOM_CreateObject exampleParams okCollab (some exampleCat) none none 4
        (some examplePayload) exampleOid fragmentedWorld).isNone = true := by
  refine ⟨by decide, by decide, by decide, by decide, by decide, by decide⟩

/-- C15 does not hold on the code.  The claim: when create returns, every page has been
unpinned as often as it was successfully pinned.  (1) When the pin of the hinted page
fails with -1, `eduom_CreateObject` returns -1 after three calls: the catalog page
(page 1) has been pinned once and never unpinned.  (2) In the successful create that
allocates a new page without a hint, page 13 is unpinned once and never pinned. -/
theorem eduom_CreateObject_pins_unbalanced :
    (eduom_CreateObject exampleParams failingPinCollab (some exampleCat) (some exampleNear)
        (some { properties := 0, tag := 0, length := 0 }) 4 (some examplePayload) exampleOid
        exampleWorld).map
      (fun r => (r.e, r.w.calls,
        successfulPins failingPinCollab { pageNo := 1, volNo := 1 } [] r.w.calls,
        unpins { pageNo := 1, volNo := 1 } r.w.calls)) =
      some (-1, [Call.BfM_GetTrain { pageNo := 1, volNo := 1 },
        Call.RDsM_PageIdToExtNo { pageNo := 10, volNo := 1 },
        Call.BfM_GetTrain { pageNo := 11, volNo := 1 }], 1, 0) ∧
    (eduom_CreateObject exampleParams okCollab (some exampleCat) none
        (some { properties := 0, tag := 0, length := 0 }) 4 (some examplePayload) exampleOid
        exampleWorld).map
      (fun r => (r.e,
        successfulPins okCollab { pageNo := 13, volNo := 1 } [] r.w.calls,
        unpins { pageNo := 13, volNo := 1 } r.w.calls)) = some (eNOERROR, 0, 1) := by
  refine ⟨by decide, by decide⟩

/-- C16: for every call of `EduOM_CreateObject` that passes validation and whose placement
(the call of `eduom_CreateObject` on line 118) returns `eNOERROR`, the record stored - at
the offset of the slot of the returned identifier, in the frame `apage` designates - has
in its header the tag of the caller-supplied header (0 when there is none), properties 0
and the length argument, whatever properties and length the caller-supplied header
holds. -/
theorem EduOM_CreateObject_record_header (C : Params) (hC : C.WF) (K : Collab)
    (cat : ObjectID) (nearObj : Option ObjectID) (objHdr : Option ObjectHdr) (length : Int)
    (data : Option Bytes) (oid : ObjectID) (w : World) (r r0 : Outcome) (tag : Int)
    (htag : tag = match objHdr with
      | some h => h.tag
      | none => 0)
    (htag0 : -32768 ≤ tag) (htag1 : tag < 32768) (hlen : length < 2147483648)
    (hval : validationError C (some cat) length data = none)
    (hinner : eduom_CreateObject C K (some cat) nearObj
      (some { properties := 0, tag := tag, length := 0 }) length data oid w = some r0)
    (hok : r0.e = eNOERROR)
    (hres : EduOM_CreateObject C K (some cat) nearObj objHdr length data oid w = some r) :
    r = r0 ∧
    ∃ s : Selected,
      r0 = insertObject C K cat { properties := 0, tag := tag, length := 0 } length
        (data.getD (fun _ => 0)) oid s ∧
      Object.tag (r.w.buffer s.apage).data
        ((r.w.buffer s.apage).slot r.oid.slotNo).offset = tag ∧
      Object.properties (r.w.buffer s.apage).data
        ((r.w.buffer s.apage).slot r.oid.slotNo).offset = 0 ∧
      Object.length (r.w.buffer s.apage).data
        ((r.w.buffer s.apage).slot r.oid.slotNo).offset = length := by
  have hr : r = r0 := by
    unfold validationError at hval
    unfold EduOM_CreateObject at hres
    split_ifs at hval hres with h1 h2 h3 h4
    simp only [] at hres
    rw [← htag, hinner] at hres
    simp only [Option.some.injEq] at hres
    rw [← hres, ← hok]
  have hlen0 : 0 ≤ length := by
    unfold validationError at hval
    split_ifs at hval with h1 h2 h3 h4
    omega
  subst hr
  refine ⟨rfl, ?_⟩
  obtain ⟨s, _, hr⟩ := eduom_CreateObject_ok_explicit C hC K cat nearObj _ length data oid w r
    hinner hok
  refine ⟨s, hr, ?_⟩
  subst hr
  have hpage := insertObject_page C K cat _ length (data.getD (fun _ => 0)) oid s hok
  have hoid := (insertObject_ok C K cat _ length (data.getD (fun _ => 0)) oid s hok).1
  have hoff : (((insertObject C K cat { properties := 0, tag := tag, length := 0 } length
      (data.getD (fun _ => 0)) oid s).w.buffer s.apage).slot
      (insertObject C K cat { properties := 0, tag := tag, length := 0 } length
        (data.getD (fun _ => 0)) oid s).oid.slotNo).offset = (s.w.buffer s.apage).header.free := by
    rw [hoid]
    simp only [placeObject]
    exact hpage.2.2.1
  rw [hoff]
  obtain ⟨hl, ht, hp⟩ := insertObject_header C K cat { properties := 0, tag := tag, length := 0 }
    length (data.getD (fun _ => 0)) oid s hok
  exact ⟨ht htag0 htag1, hp (by norm_num) (by norm_num), hl (by omega) hlen⟩

theorem EduOM_CreateObject_record_header_witness :
    EduOM_CreateObject exampleParams okCollab (some exampleCat) (some exampleNear)
        (some { properties := 5, tag := 9, length := 77 }) 4 (some examplePayload) exampleOid
        exampleWorld = some taggedNearOutcome ∧
    ∃ s : Selected,
      taggedNearOutcome = insertObject exampleParams okCollab exampleCat
        { properties := 0, tag := 9, length := 0 } 4
        ((some examplePayload).getD (fun _ => 0)) exampleOid s ∧
      Object.tag (taggedNearOutcome.w.buffer s.apage).data
        ((taggedNearOutcome.w.buffer s.apage).slot taggedNearOutcome.oid.slotNo).offset = 9 ∧
      Object.properties (taggedNearOutcome.w.buffer s.apage).data
        ((taggedNearOutcome.w.buffer s.apage).slot taggedNearOutcome.oid.slotNo).offset = 0 ∧
      Object.length (taggedNearOutcome.w.buffer s.apage).data
        ((taggedNearOutcome.w.buffer s.apage).slot taggedNearOutcome.oid.slotNo).offset = 4 :=
  ⟨rfl,
    (EduOM_CreateObject_record_header exampleParams exampleParams_WF okCollab exampleCat
      (some exampleNear) (some { properties := 5, tag := 9, length := 77 }) 4
      (some examplePayload) exampleOid exampleWorld taggedNearOutcome taggedNearOutcome 9 rfl
      (by decide) (by decide) (by decide) (by decide) rfl (by decide) rfl).2⟩


/-- C17: the insertion step of create preserves the page-layout invariant.  If the page
satisfies the invariant before the insertion - (a) data area and slot array do not
overlap, (b) live records pairwise disjoint within `[0, free)` - and (c) its
contiguous-free space is at least `needed`, then after an insertion that returns
`eNOERROR` the invariant holds again; the new record occupies `[old free, new free)`;
and every previously live slot keeps its entry and its record size, its range ending at or
before the old `free`, hence disjoint from the new record. -/
theorem insertObject_preserves_layout (C : Params) (hC : C.WF) (K : Collab) (cat : ObjectID)
    (hdr : ObjectHdr) (length : Int) (d : Bytes) (oid : ObjectID) (sel : Selected)
    (P Q : SlottedPage) (hP : P = sel.w.buffer sel.apage)
    (hQ : Q = (insertObject C K cat hdr length d oid sel).w.buffer sel.apage)
    (hlen0 : 0 ≤ length) (hlen1 : length < 2147483648)
    (hL : P.Layout C) (hfit : neededSpace C length ≤ SP_CFREE C P)
    (hok : (insertObject C K cat hdr length d oid sel).e = eNOERROR) :
    Q.Layout C ∧
    (Q.slot (insertObject C K cat hdr length d oid sel).oid.slotNo).offset = P.header.free ∧
    Q.recSize C (insertObject C K cat hdr length d oid sel).oid.slotNo =
      sizeofObjectHdr + ALIGNED_LENGTH C length ∧
    Q.header.free = P.header.free + (sizeofObjectHdr + ALIGNED_LENGTH C length) ∧
    (∀ j : Nat, j < P.header.nSlots.toNat → (P.slot (j : Int)).offset ≠ C.EMPTYSLOT →
      Q.slot (j : Int) = P.slot (j : Int) ∧ Q.recSize C (j : Int) = P.recSize C (j : Int) ∧
      (P.slot (j : Int)).offset + P.recSize C (j : Int) ≤ P.header.free) := by
  subst hP hQ
  obtain ⟨hn, hf, hs, hnew⟩ := insertObject_page C K cat hdr length d oid sel hok
  have hoid := (insertObject_ok C K cat hdr length d oid sel hok).1
  obtain ⟨_, f2, f3, f4⟩ :=
    findSlot_spec C (sel.w.buffer sel.apage) (sel.w.buffer sel.apage).header.nSlots.toNat 0
  have hslotNo : (insertObject C K cat hdr length d oid sel).oid.slotNo =
      ((findSlot C (sel.w.buffer sel.apage)
        (sel.w.buffer sel.apage).header.nSlots.toNat 0 : Nat) : Int) := by
    rw [hoid]; rfl
  have hal := ALIGNED_LENGTH_ge C hC length hlen0
  have hlenQ := (insertObject_header C K cat hdr length d oid sel hok).1 (by omega) hlen1
  -- old live slots
  have hold : ∀ j : Nat, j < (sel.w.buffer sel.apage).header.nSlots.toNat →
      ((sel.w.buffer sel.apage).slot (j : Int)).offset ≠ C.EMPTYSLOT →
      ((insertObject C K cat hdr length d oid sel).w.buffer sel.apage).slot (j : Int) =
        (sel.w.buffer sel.apage).slot (j : Int) ∧
      ((insertObject C K cat hdr length d oid sel).w.buffer sel.apage).recLength (j : Int) =
        (sel.w.buffer sel.apage).recLength (j : Int) := by
    intro j hj hl
    have hne : (j : Int) ≠ ((findSlot C (sel.w.buffer sel.apage)
        (sel.w.buffer sel.apage).header.nSlots.toNat 0 : Nat) : Int) := by
      intro he
      have he1 : j = findSlot C (sel.w.buffer sel.apage)
          (sel.w.buffer sel.apage).header.nSlots.toNat 0 := by exact_mod_cast he
      exact hl (by rw [he1]; exact f3 (by omega))
    have hsl := hnew (j : Int) hne
    refine ⟨hsl, ?_⟩
    unfold SlottedPage.recLength
    rw [hsl]
    have hb := hL.valid.inBounds j hj hl
    have hpos := Valid.recSize_pos C _ hC hL.valid j hj hl
    apply Object.length_congr
    intro k hk0 hk1
    exact insertObject_data_below C K cat hdr length d oid sel hok _ (by omega)
  have holdsize : ∀ j : Nat, j < (sel.w.buffer sel.apage).header.nSlots.toNat →
      ((sel.w.buffer sel.apage).slot (j : Int)).offset ≠ C.EMPTYSLOT →
      ((insertObject C K cat hdr length d oid sel).w.buffer sel.apage).recSize C (j : Int) =
        (sel.w.buffer sel.apage).recSize C (j : Int) := by
    intro j hj hl
    unfold SlottedPage.recSize
    rw [(hold j hj hl).2]
  have hnewlen : ((insertObject C K cat hdr length d oid sel).w.buffer sel.apage).recLength
      ((findSlot C (sel.w.buffer sel.apage)
        (sel.w.buffer sel.apage).header.nSlots.toNat 0 : Nat) : Int) = length := by
    unfold SlottedPage.recLength
    rw [hs]
    exact hlenQ
  have hnewsize : ((insertObject C K cat hdr length d oid sel).w.buffer sel.apage).recSize C
      ((findSlot C (sel.w.buffer sel.apage)
        (sel.w.buffer sel.apage).header.nSlots.toNat 0 : Nat) : Int) =
      sizeofObjectHdr + ALIGNED_LENGTH C length := by
    unfold SlottedPage.recSize
    rw [hnewlen, add_comm]
  -- a slot of the new page is the new one or an old live one
  have hcase : ∀ j : Nat,
      j < ((insertObject C K cat hdr length d oid sel).w.buffer sel.apage).header.nSlots.toNat →
      (((insertObject C K cat hdr length d oid sel).w.buffer sel.apage).slot (j : Int)).offset ≠
        C.EMPTYSLOT →
      j = findSlot C (sel.w.buffer sel.apage) (sel.w.buffer sel.apage).header.nSlots.toNat 0 ∨
      (j < (sel.w.buffer sel.apage).header.nSlots.toNat ∧
        ((sel.w.buffer sel.apage).slot (j : Int)).offset ≠ C.EMPTYSLOT) := by
    intro j hj hl
    by_cases he : j = findSlot C (sel.w.buffer sel.apage)
        (sel.w.buffer sel.apage).header.nSlots.toNat 0
    · exact Or.inl he
    · right
      have hne : (j : Int) ≠ ((findSlot C (sel.w.buffer sel.apage)
          (sel.w.buffer sel.apage).header.nSlots.toNat 0 : Nat) : Int) := by
        exact_mod_cast he
      rw [hnew (j : Int) hne] at hl
      rw [hn] at hj
      exact ⟨by omega, hl⟩
  have hsp := hC.slot_pos
  have hnn := hL.nSlots_nonneg
  refine ⟨⟨?_, ?_, ?_, ⟨?_, ?_⟩⟩, ?_, ?_, hf, ?_⟩
  · rw [hn]; omega
  · rw [hf]; unfold sizeofObjectHdr; have := hL.free_nonneg; omega
  · rw [hn, hf]
    unfold neededSpace SP_CFREE at hfit
    have hmax : max (sel.w.buffer sel.apage).header.nSlots
        (((findSlot C (sel.w.buffer sel.apage)
          (sel.w.buffer sel.apage).header.nSlots.toNat 0 : Nat) : Int) + 1) ≤
        (sel.w.buffer sel.apage).header.nSlots + 1 := by omega
    have := mul_le_mul_of_nonneg_right hmax (le_of_lt hsp)
    rw [add_mul] at this
    linarith
  · intro j hj hl
    rcases hcase j hj hl with he | ⟨hjo, hlo⟩
    · rw [he, hs, hnewlen, hnewsize, hf]
      exact ⟨hL.free_nonneg, hlen0, le_refl _⟩
    · have hb := hL.valid.inBounds j hjo hlo
      rw [(hold j hjo hlo).1, (hold j hjo hlo).2, holdsize j hjo hlo, hf]
      unfold sizeofObjectHdr
      exact ⟨hb.1, hb.2.1, by omega⟩
  · intro i hi j hj hli hlj hij
    rcases hcase i hi hli with hei | ⟨hio, hlio⟩ <;> rcases hcase j hj hlj with hej | ⟨hjo, hljo⟩
    · exact absurd (hei.trans hej.symm) hij
    · right
      have hb := hL.valid.inBounds j hjo hljo
      rw [(hold j hjo hljo).1, holdsize j hjo hljo, hei, hs]
      exact hb.2.2
    · left
      have hb := hL.valid.inBounds i hio hlio
      rw [(hold i hio hlio).1, holdsize i hio hlio, hej, hs]
      exact hb.2.2
    · rw [(hold i hio hlio).1, holdsize i hio hlio, (hold j hjo hljo).1, holdsize j hjo hljo]
      exact hL.valid.disjoint i hio j hjo hlio hljo hij
  · rw [hslotNo]; exact hs
  · rw [hslotNo]; exact hnewsize
  · intro j hj hl
    exact ⟨(hold j hj hl).1, holdsize j hj hl, (hL.valid.inBounds j hj hl).2.2⟩

theorem insertObject_preserves_layout_witness :
    examplePage.Layout exampleParams ∧
    neededSpace exampleParams 4 ≤ SP_CFREE exampleParams examplePage ∧
    (exampleNearOutcome.w.buffer { pageNo := 11, volNo := 1 }).Layout exampleParams ∧
    (exampleNearOutcome.w.buffer { pageNo := 11, volNo := 1 }).header.free =
      examplePage.header.free + (sizeofObjectHdr + ALIGNED_LENGTH exampleParams 4) :=
  have h := insertObject_preserves_layout exampleParams exampleParams_WF okCollab exampleCat
    { properties := 0, tag := 0, length := 0 } 4 examplePayload exampleOid
    { w := { exampleWorld with
             calls := [Call.BfM_GetTrain { pageNo := 1, volNo := 1 },
                       Call.RDsM_PageIdToExtNo { pageNo := 10, volNo := 1 },
                       Call.BfM_GetTrain { pageNo := 11, volNo := 1 },
                       Call.om_RemoveFromAvailSpaceList exampleCat { pageNo := 11, volNo := 1 }
                         { pageNo := 11, volNo := 1 }] }
      apage := { pageNo := 11, volNo := 1 }
      pid := { pageNo := 11, volNo := 1 } }
    examplePage (exampleNearOutcome.w.buffer { pageNo := 11, volNo := 1 }) rfl rfl
    (by decide) (by decide) examplePage_layout (by decide) (by decide)
  ⟨examplePage_layout, by decide, h.1, h.2.2.2.1⟩


/-- C19: in the near-object branch of a successful create that compacts the hinted page
(reclaimable-free at least `needed`, contiguous-free below `needed`), the hinted page
being structurally valid and the hinted slot live, the new record is placed immediately
after the hinted record: in the page after the create, the offset of the new record is
the offset of the hinted record plus `sizeof(ObjectHdr)` plus `ALIGNED_LENGTH` of the
hinted record's length. -/
theorem eduom_CreateObject_places_after_hint (C : Params) (hC : C.WF) (K : Collab)
    (cat near : ObjectID) (hdr : ObjectHdr) (length : Int) (data : Option Bytes)
    (oid : ObjectID) (w : World) (r : Outcome) (nearPid : PageID) (t : Nat)
    (hpid : nearPid = { pageNo := near.pageNo, volNo := near.volNo })
    (hP : (w.buffer nearPid).Valid C)
    (ht : near.slotNo = (t : Int)) (htn : t < (w.buffer nearPid).header.nSlots.toNat)
    (htl : ((w.buffer nearPid).slot (t : Int)).offset ≠ C.EMPTYSLOT)
    (hfree : neededSpace C length ≤ SP_FREE C (w.buffer nearPid))
    (hfrag : SP_CFREE C (w.buffer nearPid) < neededSpace C length)
    (hres : eduom_CreateObject C K (some cat) (some near) (some hdr) length data oid w = some r)
    (hok : r.e = eNOERROR) :
    ((r.w.buffer nearPid).slot r.oid.slotNo).offset =
      ((r.w.buffer nearPid).slot near.slotNo).offset + sizeofObjectHdr +
        ALIGNED_LENGTH C ((r.w.buffer nearPid).recLength near.slotNo) ∧
    r.oid.slotNo ≠ near.slotNo := by
  subst hpid
  obtain ⟨s, hsel, hr⟩ := eduom_CreateObject_ok_explicit C hC K cat (some near) hdr length
    data oid w r hres hok
  simp only [] at hsel
  subst hr
  obtain ⟨ha, hp, hb, _⟩ := selectNear_compacts C K cat near _ _ _ (selectionWorld K cat w) s
    hfree hfrag hsel
  rw [selectionWorld_buffer] at hb
  have hT : (w.buffer { pageNo := near.pageNo, volNo := near.volNo }).TargetOk C near.slotNo :=
    Or.inr ⟨t, ht, htn, htl⟩
  have hsp : s.w.buffer s.apage =
      (EduOM_CompactPage C (w.buffer { pageNo := near.pageNo, volNo := near.volNo })
        near.slotNo).2 := by
    rw [ha, hb, Function.update_same]
  have hio := insertObject_ok C K cat hdr length (data.getD (fun _ => 0)) oid s hok
  obtain ⟨_, _, hs, hnew⟩ := insertObject_page C K cat hdr length (data.getD (fun _ => 0)) oid s hok
  have hbelow := insertObject_data_below C K cat hdr length (data.getD (fun _ => 0)) oid s hok
  obtain ⟨_, f2, f3, f4⟩ := findSlot_spec C (s.w.buffer s.apage)
    (s.w.buffer s.apage).header.nSlots.toNat 0
  have hslotNo : (insertObject C K cat hdr length (data.getD (fun _ => 0)) oid s).oid.slotNo =
      ((findSlot C (s.w.buffer s.apage) (s.w.buffer s.apage).header.nSlots.toNat 0 : Nat) :
        Int) := by
    rw [hio.1]; rfl
  rw [hsp] at hs hnew hbelow f2 f3 f4 hslotNo
  rw [ha] at hs hnew hbelow
  -- the hinted slot in the compacted page
  have hlive := (compact_live_iff C _ near.slotNo hC hP hT t htn).mpr htl
  have hrange := compact_range C _ near.slotNo hC hP hT t htn htl
  have hsize := compact_recSize C _ near.slotNo hC hP hT t htn htl
  have hpos := Valid.recSize_pos C _ hC hP t htn htl
  rw [compact_nSlots] at f2 f3 f4 hslotNo hs hnew
  have hne : (t : Int) ≠ ((findSlot C
      (EduOM_CompactPage C (w.buffer { pageNo := near.pageNo, volNo := near.volNo })
        near.slotNo).2
      (w.buffer { pageNo := near.pageNo, volNo := near.volNo }).header.nSlots.toNat 0 : Nat) :
      Int) := by
    intro he
    have he1 : t = findSlot C
        (EduOM_CompactPage C (w.buffer { pageNo := near.pageNo, volNo := near.volNo })
          near.slotNo).2
        (w.buffer { pageNo := near.pageNo, volNo := near.volNo }).header.nSlots.toNat 0 := by
      exact_mod_cast he
    exact hlive (by rw [he1]; exact f3 (by omega))
  rcases hrange with ⟨_, _, hend⟩ | ⟨hcontra, _, _⟩
  · have hslot_t := hnew (t : Int) hne
    have hlen_t : ((insertObject C K cat hdr length (data.getD (fun _ => 0)) oid s).w.buffer
        { pageNo := near.pageNo, volNo := near.volNo }).recLength (t : Int) =
        (EduOM_CompactPage C (w.buffer { pageNo := near.pageNo, volNo := near.volNo })
          near.slotNo).2.recLength (t : Int) := by
      unfold SlottedPage.recLength
      rw [hslot_t]
      apply Object.length_congr
      intro k hk0 hk1
      exact hbelow _ (by omega)
    rw [← ht] at hslot_t hlen_t hend hne
    constructor
    · rw [hslotNo, hs, hslot_t, hlen_t, ← hend]
      unfold SlottedPage.recSize
      ring
    · rw [hslotNo]
      exact fun he => hne he.symm
  · exact absurd ht hcontra

theorem eduom_CreateObject_places_after_hint_witness :
    fragmentedPage.Valid exampleParams ∧
    eduom_CreateObject exampleParams okCollab (some exampleCat) (some exampleLast)
        (some { properties := 0, tag := 0, length := 0 }) 4 (some examplePayload) exampleOid
        fragmentedWorld = some fragmentedNearOutcome ∧
    ((fragmentedNearOutcome.w.buffer { pageNo := 12, volNo := 1 }).slot
        fragmentedNearOutcome.oid.slotNo).offset =
      ((fragmentedNearOutcome.w.buffer { pageNo := 12, volNo := 1 }).slot
          exampleLast.slotNo).offset + sizeofObjectHdr +
        ALIGNED_LENGTH exampleParams
          ((fragmentedNearOutcome.w.buffer { pageNo := 12, volNo := 1 }).recLength
            exampleLast.slotNo) :=
  ⟨fragmentedPage_valid, rfl,
    (eduom_CreateObject_places_after_hint exampleParams exampleParams_WF okCollab exampleCat
      exampleLast { properties := 0, tag := 0, length := 0 } 4 (some examplePayload)
      exampleOid fragmentedWorld fragmentedNearOutcome { pageNo := 12, volNo := 1 } 0 rfl
      fragmentedPage_valid rfl (by decide) (by decide) (by decide) (by decide) rfl
      (by decide)).1⟩

/-- C21: compaction converts all reclaimable space into contiguous space.  For a page `P`
that satisfies the layout invariant and whose `unused` field is exact (`free - unused` is
the sum of the sizes of the live records), and a target that is `NIL` or live, after
`EduOM_CompactPage(P, t)` the contiguous-free space equals the reclaimable-free space of
`P`, the reclaimable-free space is unchanged and the layout invariant still holds.  Hence
reclaimable-free at least `needed` before gives contiguous-free at least `needed` after,
and an insertion into the compacted page that returns `eNOERROR` leaves the data area and
the slot array apart (`free + nSlots * sizeof(SlottedPageSlot)` at most the page size). -/
theorem compactPage_reclaims_unused (C : Params) (hC : C.WF) (P : SlottedPage)
    (hL : P.Layout C) (hexact : P.header.free - P.header.unused = P.liveBytes C)
    (t : Int) (ht : P.TargetOk C t) (Q : SlottedPage) (hQ : Q = (EduOM_CompactPage C P t).2) :
    SP_CFREE C Q = SP_FREE C P ∧
    SP_FREE C Q = SP_FREE C P ∧
    Q.Layout C ∧
    (∀ needed : Int, needed ≤ SP_FREE C P → needed ≤ SP_CFREE C Q) ∧
    (∀ (K : Collab) (cat : ObjectID) (hdr : ObjectHdr) (length : Int) (d : Bytes)
        (oid : ObjectID) (sel : Selected),
      sel.w.buffer sel.apage = Q → neededSpace C length ≤ SP_FREE C P →
      (insertObject C K cat hdr length d oid sel).e = eNOERROR →
      ((insertObject C K cat hdr length d oid sel).w.buffer sel.apage).header.free +
        ((insertObject C K cat hdr length d oid sel).w.buffer sel.apage).header.nSlots *
          C.sizeofSlottedPageSlot ≤ C.PAGESIZE) := by
  subst hQ
  have hfree := compact_free_eq_liveBytes C P t hC ht
  have hun := compact_unused C P t
  have hns := compact_nSlots C P t
  have hcf : SP_CFREE C (EduOM_CompactPage C P t).2 = SP_FREE C P := by
    unfold SP_FREE SP_CFREE
    rw [hfree, hns, ← hexact]
    ring
  have hLQ := compact_layout C P t hC hL ht
  refine ⟨hcf, ?_, hLQ, ?_, ?_⟩
  · unfold SP_FREE at hcf ⊢
    rw [hcf, hun, add_zero]
  · intro needed h
    rw [hcf]
    exact h
  · intro K cat hdr length d oid sel hsel hneed hok
    obtain ⟨h1, h2, _, _⟩ := insertObject_page C K cat hdr length d oid sel hok
    obtain ⟨_, f2, _, _⟩ :=
      findSlot_spec C (sel.w.buffer sel.apage) (sel.w.buffer sel.apage).header.nSlots.toNat 0
    rw [hsel] at h1 h2 f2
    rw [h1, h2]
    have hnn := hLQ.nSlots_nonneg
    have hsp := hC.slot_pos
    rw [← hcf] at hneed
    unfold neededSpace SP_CFREE at hneed
    have hmax : max (EduOM_CompactPage C P t).2.header.nSlots
        (((findSlot C (EduOM_CompactPage C P t).2
          (EduOM_CompactPage C P t).2.header.nSlots.toNat 0 : Nat) : Int) + 1) ≤
        (EduOM_CompactPage C P t).2.header.nSlots + 1 := by omega
    have := mul_le_mul_of_nonneg_right hmax (le_of_lt hsp)
    rw [add_mul] at this
    linarith

theorem compactPage_reclaims_unused_witness :
    examplePage.Layout exampleParams ∧
    examplePage.header.free - examplePage.header.unused = examplePage.liveBytes exampleParams ∧
    examplePage.TargetOk exampleParams 0 ∧
    SP_CFREE exampleParams (EduOM_CompactPage exampleParams examplePage 0).2 =
      SP_FREE exampleParams examplePage :=
  ⟨examplePage_layout, by decide, examplePage_target_zero,
    (compactPage_reclaims_unused exampleParams exampleParams_WF examplePage examplePage_layout
      (by decide) 0 examplePage_target_zero _ rfl).1⟩

end CreateClaims

end EduOM
